import Mathlib

/-!
Verification of the simple-kv server core: data model, in-memory storage,
command dispatch, hook chain, topic broadcaster and the frame codec,
embedded shallowly from the Rust sources (src/src/...).
-/

set_option maxHeartbeats 1000000
set_option maxRecDepth 8192

/-- Modelled from the spec (section 6.2): the message schema file pb/abi.rs is
generated and absent from src/; the Value oneof over
string / integer(int64) / bool / binary(bytes). -/
inductive ValueVariant : Type
  | string (s : String)
  | integer (i : Int)
  | bool (b : Bool)
  | binary (bs : List UInt8)
deriving DecidableEq

/-- Modelled from the spec (section 3): a Value is an optional variant; a
default-constructed Value is the null variant (the prost message has
value : Option of oneof). -/
structure Value : Type where
  value : Option ValueVariant
deriving DecidableEq

/-- Rust Value::default(): the null variant. -/
def Value.default : Value := ⟨none⟩

/-- From i64 for Value (src/src/pb/mod.rs). -/
def Value.ofInt (i : Int) : Value := ⟨some (.integer i)⟩

/-- From bool for Value (src/src/pb/mod.rs). -/
def Value.ofBool (b : Bool) : Value := ⟨some (.bool b)⟩

/-- From str for Value (src/src/pb/mod.rs). -/
def Value.ofString (s : String) : Value := ⟨some (.string s)⟩

/-- From Bytes for Value (src/src/pb/mod.rs). -/
def Value.ofBytes (bs : List UInt8) : Value := ⟨some (.binary bs)⟩

/-- Modelled from the spec (section 6.2): KvPair = (key, value); the prost
field value is optional. -/
structure KvPair : Type where
  key : String
  value : Option Value
deriving DecidableEq

/-- KvPair::new (src/src/pb/mod.rs). -/
def KvPair.new (k : String) (v : Value) : KvPair := ⟨k, some v⟩

/-- Modelled from the spec (section 6.2): CommandResponse record. -/
structure CommandResponse : Type where
  status : Nat
  message : String
  values : List Value
  pairs : List KvPair
deriving DecidableEq

/-- Rust CommandResponse::default(): all fields default. -/
def CommandResponse.default : CommandResponse := ⟨0, "", [], []⟩

/-- CommandResponse::ok (src/src/pb/mod.rs): default with status 200. -/
def CommandResponse.ok : CommandResponse := ⟨200, "", [], []⟩

/- Request variant payloads, modelled from the spec (section 6.2). -/

structure Hget : Type where
  table : String
  key : String
deriving DecidableEq

structure Hgetall : Type where
  table : String
deriving DecidableEq

structure Hmget : Type where
  table : String
  keys : List String
deriving DecidableEq

structure Hset : Type where
  table : String
  pair : Option KvPair
deriving DecidableEq

structure Hmset : Type where
  table : String
  pairs : List KvPair
deriving DecidableEq

structure Hdel : Type where
  table : String
  key : String
deriving DecidableEq

structure Hmdel : Type where
  table : String
  keys : List String
deriving DecidableEq

structure Hexist : Type where
  table : String
  key : String
deriving DecidableEq

structure Hmexist : Type where
  table : String
  keys : List String
deriving DecidableEq

structure Subscribe : Type where
  topic : String
deriving DecidableEq

structure Unsubscribe : Type where
  topic : String
  id : Nat
deriving DecidableEq

structure Publish : Type where
  topic : String
  data : List Value
deriving DecidableEq

/-- Modelled from the spec (section 6.2): the CommandRequest oneof. -/
inductive RequestData : Type
  | Hget (v : Hget)
  | Hgetall (v : Hgetall)
  | Hmget (v : Hmget)
  | Hset (v : Hset)
  | Hmset (v : Hmset)
  | Hdel (v : Hdel)
  | Hmdel (v : Hmdel)
  | Hexist (v : Hexist)
  | Hmexist (v : Hmexist)
  | Subscribe (v : Subscribe)
  | Unsubscribe (v : Unsubscribe)
  | Publish (v : Publish)
deriving DecidableEq

/-- Modelled from the spec (section 6.2): a CommandRequest holds an optional
oneof (prost encodes an absent oneof as None). -/
structure CommandRequest : Type where
  requestData : Option RequestData
deriving DecidableEq

/-- Modelled from the spec (section 7): src/src/error.rs is absent from the
sources; the KvError kinds the core surfaces. -/
inductive KvError : Type
  | NotFound (table key : String)
  | InvalidCommand (text : String)
  | ConvertError (src dst : String)
  | StorageError (text : String)
  | EncodeError
  | DecodeError
  | FrameError
  | TlsError (text : String)
  | IoError
  | Internal (text : String)
deriving DecidableEq

/-- Modelled from the spec (sections 4.6 and 8, scenario 2): the Display text of
KvError; for NotFound it contains the words Not found (the test suite in
src/src/service/command_service.rs asserts message.contains of that text). -/
def KvError.toMessage : KvError → String
  | .NotFound t k => "Not found for table: " ++ t ++ ", key: " ++ k
  | .InvalidCommand s => "Invalid command: " ++ s
  | .ConvertError s d => "Cannot convert value " ++ s ++ " to " ++ d
  | .StorageError s => "Storage error: " ++ s
  | .EncodeError => "Failed to encode protobuf message"
  | .DecodeError => "Failed to decode protobuf message"
  | .FrameError => "Frame is larger than max size"
  | .TlsError s => "Tls error: " ++ s
  | .IoError => "I/O error"
  | .Internal s => "Internal error: " ++ s

/-- Decidable equality for Except results (needed to evaluate the embedding
on concrete inputs). -/
instance {ε α : Type} [DecidableEq ε] [DecidableEq α] : DecidableEq (Except ε α) :=
  fun x y =>
    match x, y with
    | .ok a, .ok b =>
      if h : a = b then .isTrue (by rw [h]) else
        .isFalse (by intro he; cases he; exact h rfl)
    | .error a, .error b =>
      if h : a = b then .isTrue (by rw [h]) else
        .isFalse (by intro he; cases he; exact h rfl)
    | .ok _, .error _ => .isFalse (by intro he; cases he)
    | .error _, .ok _ => .isFalse (by intro he; cases he)

/-! ## Storage: association-list model of DashMap, and the MemTable engine
(src/src/storage/memory.rs). A DashMap is embedded as an association list
with unique keys; insert replaces in place or appends, remove deletes. -/

/-- Association-list lookup (DashMap::get). -/
def assocGet {α : Type} : List (String × α) → String → Option α
  | [], _ => none
  | (k, v) :: rest, key => if k = key then some v else assocGet rest key

/-- Association-list lookup with Nat keys (DashMap with u32 keys). -/
def assocGetN {α : Type} : List (Nat × α) → Nat → Option α
  | [], _ => none
  | (k, v) :: rest, key => if k = key then some v else assocGetN rest key

/-- Association-list insert (DashMap::insert): replace if present, else append. -/
def assocInsert {α : Type} : List (String × α) → String → α → List (String × α)
  | [], key, v => [(key, v)]
  | (k, w) :: rest, key, v =>
    if k = key then (k, v) :: rest else (k, w) :: assocInsert rest key v

/-- Association-list insert with Nat keys. -/
def assocInsertN {α : Type} : List (Nat × α) → Nat → α → List (Nat × α)
  | [], key, v => [(key, v)]
  | (k, w) :: rest, key, v =>
    if k = key then (k, v) :: rest else (k, w) :: assocInsertN rest key v

/-- Association-list remove (DashMap::remove). -/
def assocRemove {α : Type} : List (String × α) → String → List (String × α)
  | [], _ => []
  | (k, v) :: rest, key => if k = key then rest else (k, v) :: assocRemove rest key

/-- Association-list remove with Nat keys. -/
def assocRemoveN {α : Type} : List (Nat × α) → Nat → List (Nat × α)
  | [], _ => []
  | (k, v) :: rest, key => if k = key then rest else (k, v) :: assocRemoveN rest key

/-- One table: key to Value map (the inner DashMap of MemTable). -/
abbrev Table := List (String × Value)

/-- The MemTable engine state: table-name to Table (the outer DashMap). -/
abbrev MemTable := List (String × Table)

/-- MemTable::get_or_create_table (src/src/storage/memory.rs): look the table
up, creating an empty one on first access; the interior mutation is modelled
by returning the updated engine state. -/
def MemTable.getOrCreateTable (st : MemTable) (t : String) : Table × MemTable :=
  match assocGet st t with
  | some tbl => (tbl, st)
  | none => ([], assocInsert st t [])

/-- Storage::get for MemTable. -/
def MemTable.get (st : MemTable) (t k : String) :
    Except KvError (Option Value) × MemTable :=
  let (tbl, st') := st.getOrCreateTable t
  (.ok (assocGet tbl k), st')

/-- Storage::set for MemTable: DashMap::insert returns the previous value. -/
def MemTable.set (st : MemTable) (t k : String) (v : Value) :
    Except KvError (Option Value) × MemTable :=
  let (tbl, st') := st.getOrCreateTable t
  (.ok (assocGet tbl k), assocInsert st' t (assocInsert tbl k v))

/-- Storage::contains for MemTable. -/
def MemTable.contains (st : MemTable) (t k : String) :
    Except KvError Bool × MemTable :=
  let (tbl, st') := st.getOrCreateTable t
  (.ok (assocGet tbl k).isSome, st')

/-- Storage::del for MemTable: DashMap::remove returns the removed value. -/
def MemTable.del (st : MemTable) (t k : String) :
    Except KvError (Option Value) × MemTable :=
  let (tbl, st') := st.getOrCreateTable t
  (.ok (assocGet tbl k), assocInsert st' t (assocRemove tbl k))

/-- Storage::get_all for MemTable: the table snapshot as KvPairs. -/
def MemTable.getAll (st : MemTable) (t : String) :
    Except KvError (List KvPair) × MemTable :=
  let (tbl, st') := st.getOrCreateTable t
  (.ok (tbl.map (fun p => KvPair.new p.1 p.2)), st')

/-- Storage::get_iter for MemTable: iterates a clone (snapshot) of the table. -/
def MemTable.getIter (st : MemTable) (t : String) :
    Except KvError (List KvPair) × MemTable :=
  let (tbl, st') := st.getOrCreateTable t
  (.ok (tbl.map (fun p => KvPair.new p.1 p.2)), st')

/-! ## Response conversions (src/src/pb/mod.rs) -/

/-- From Value for CommandResponse: status 200, values = [v]. -/
def CommandResponse.fromValue (v : Value) : CommandResponse := ⟨200, "", [v], []⟩

/-- From Vec KvPair for CommandResponse: status 200, pairs. -/
def CommandResponse.fromPairs (ps : List KvPair) : CommandResponse := ⟨200, "", [], ps⟩

/-- From Vec Value for CommandResponse: status 200, values. -/
def CommandResponse.fromValues (vs : List Value) : CommandResponse := ⟨200, "", vs, []⟩

/-- From KvError for CommandResponse: NotFound maps to 404, InvalidCommand to
400, everything else to 500; the message is the error text, values and pairs
left empty. -/
def CommandResponse.fromError (e : KvError) : CommandResponse :=
  let status : Nat :=
    match e with
    | .NotFound _ _ => 404
    | .InvalidCommand _ => 400
    | _ => 500
  ⟨status, e.toMessage, [], []⟩

/-! ## Command services (src/src/service/command_service.rs). Each execute
takes the store by shared reference and mutates it internally; the embedding
threads the engine state explicitly. -/

/-- CommandService for Hget. -/
def Hget.execute (c : Hget) (store : MemTable) : CommandResponse × MemTable :=
  match MemTable.get store c.table c.key with
  | (.ok (some v), st) => (CommandResponse.fromValue v, st)
  | (.ok none, st) => (CommandResponse.fromError (.NotFound c.table c.key), st)
  | (.error e, st) => (CommandResponse.fromError e, st)

/-- CommandService for Hset: a missing pair stores nothing and answers with the
default (null) Value; otherwise insert and answer with the previous value. -/
def Hset.execute (c : Hset) (store : MemTable) : CommandResponse × MemTable :=
  match c.pair with
  | some pair =>
    match MemTable.set store c.table pair.key (pair.value.getD Value.default) with
    | (.ok (some v), st) => (CommandResponse.fromValue v, st)
    | (.ok none, st) => (CommandResponse.fromValue Value.default, st)
    | (.error e, st) => (CommandResponse.fromError e, st)
  | none => (CommandResponse.fromValue Value.default, store)

/-- CommandService for Hgetall. -/
def Hgetall.execute (c : Hgetall) (store : MemTable) : CommandResponse × MemTable :=
  match MemTable.getAll store c.table with
  | (.ok pairs, st) => (CommandResponse.fromPairs pairs, st)
  | (.error e, st) => (CommandResponse.fromError e, st)

/-- CommandService for Hmget: map each key through get, null when absent or on
error; the iterator runs left to right, threading the store state. -/
def Hmget.execute (c : Hmget) (store : MemTable) : CommandResponse × MemTable :=
  let r := c.keys.foldl
    (fun (acc : List Value × MemTable) key =>
      match MemTable.get acc.2 c.table key with
      | (.ok (some v), st) => (acc.1 ++ [v], st)
      | (_, st) => (acc.1 ++ [Value.default], st))
    ([], store)
  (CommandResponse.fromValues r.1, r.2)

/-- CommandService for Hmset: map each pair through set (storing the default
null Value when the pair has none), collecting previous values in order. -/
def Hmset.execute (c : Hmset) (store : MemTable) : CommandResponse × MemTable :=
  let r := c.pairs.foldl
    (fun (acc : List Value × MemTable) pair =>
      match MemTable.set acc.2 c.table pair.key (pair.value.getD Value.default) with
      | (.ok (some v), st) => (acc.1 ++ [v], st)
      | (_, st) => (acc.1 ++ [Value.default], st))
    ([], store)
  (CommandResponse.fromValues r.1, r.2)

/-- CommandService for Hdel: the catch-all arm covers both the absent key and
the error case with the default null Value. -/
def Hdel.execute (c : Hdel) (store : MemTable) : CommandResponse × MemTable :=
  match MemTable.del store c.table c.key with
  | (.ok (some v), st) => (CommandResponse.fromValue v, st)
  | (_, st) => (CommandResponse.fromValue Value.default, st)

/-- CommandService for Hmdel. -/
def Hmdel.execute (c : Hmdel) (store : MemTable) : CommandResponse × MemTable :=
  let r := c.keys.foldl
    (fun (acc : List Value × MemTable) key =>
      match MemTable.del acc.2 c.table key with
      | (.ok (some v), st) => (acc.1 ++ [v], st)
      | (_, st) => (acc.1 ++ [Value.default], st))
    ([], store)
  (CommandResponse.fromValues r.1, r.2)

/-- CommandService for Hexist. -/
def Hexist.execute (c : Hexist) (store : MemTable) : CommandResponse × MemTable :=
  match MemTable.contains store c.table c.key with
  | (.ok v, st) => (CommandResponse.fromValue (Value.ofBool v), st)
  | (.error e, st) => (CommandResponse.fromError e, st)

/-- CommandService for Hmexist: each miss or error contributes the default
null Value, a hit the boolean. -/
def Hmexist.execute (c : Hmexist) (store : MemTable) : CommandResponse × MemTable :=
  let r := c.keys.foldl
    (fun (acc : List Value × MemTable) key =>
      match MemTable.contains acc.2 c.table key with
      | (.ok v, st) => (acc.1 ++ [Value.ofBool v], st)
      | (_, st) => (acc.1 ++ [Value.default], st))
    ([], store)
  (CommandResponse.fromValues r.1, r.2)

/-- dispatch (src/src/service/mod.rs): route a request by variant; a missing
variant is InvalidCommand; pub/sub variants fall to the catch-all arm that
returns the default sentinel response so execute can try dispatch_stream. -/
def dispatch (request : CommandRequest) (store : MemTable) :
    CommandResponse × MemTable :=
  match request.requestData with
  | some (.Hget v) => v.execute store
  | some (.Hgetall v) => v.execute store
  | some (.Hmget v) => v.execute store
  | some (.Hset v) => v.execute store
  | some (.Hmset v) => v.execute store
  | some (.Hdel v) => v.execute store
  | some (.Hmdel v) => v.execute store
  | some (.Hexist v) => v.execute store
  | some (.Hmexist v) => v.execute store
  | none => (CommandResponse.fromError (.InvalidCommand "invalid command"), store)
  | some (.Publish _) => (CommandResponse.default, store)
  | some (.Subscribe _) => (CommandResponse.default, store)
  | some (.Unsubscribe _) => (CommandResponse.default, store)

/-- Request constructors (src/src/pb/mod.rs): CommandRequest::new_hset. -/
def CommandRequest.newHset (table key : String) (value : Value) : CommandRequest :=
  ⟨some (.Hset ⟨table, some (KvPair.new key value)⟩)⟩

/-- CommandRequest::new_hget. -/
def CommandRequest.newHget (table key : String) : CommandRequest :=
  ⟨some (.Hget ⟨table, key⟩)⟩

/-- CommandRequest::new_hmset. -/
def CommandRequest.newHmset (table : String) (pairs : List KvPair) : CommandRequest :=
  ⟨some (.Hmset ⟨table, pairs⟩)⟩

/-- CommandRequest::new_subscribe. -/
def CommandRequest.newSubscribe (name : String) : CommandRequest :=
  ⟨some (.Subscribe ⟨name⟩)⟩

/-- CommandRequest::new_unsubscribe. -/
def CommandRequest.newUnsubscribe (name : String) (id : Nat) : CommandRequest :=
  ⟨some (.Unsubscribe ⟨name, id⟩)⟩

/-- CommandRequest::new_publish. -/
def CommandRequest.newPublish (name : String) (data : List Value) : CommandRequest :=
  ⟨some (.Publish ⟨name, data⟩)⟩

/-! ## Topic broadcaster (src/src/service/topic.rs). The two DashMaps and the
NEXT_ID atomic counter become explicit state; an mpsc channel becomes a
bounded buffer plus a receiver-alive flag (dropping the receiver closes the
channel). tokio mpsc send waits for capacity: with a live receiver and a full
buffer the sending task suspends, which the publish loop model surfaces as a
blocked outcome. -/

/-- Channel capacity (BROADCAST_CAPACITY in src/src/service/topic.rs). -/
def BROADCAST_CAPACITY : Nat := 128

/-- One subscription channel: the queued responses (oldest first) and whether
the receiver half is still alive. -/
structure SubQueue : Type where
  buffer : List CommandResponse
  receiverAlive : Bool
deriving DecidableEq

/-- Broadcaster state: topic to id-set, id to sender queue, and the NEXT_ID
counter (static in the source, starting at 1). -/
structure Broadcaster : Type where
  topics : List (String × List Nat)
  subscriptions : List (Nat × SubQueue)
  nextId : Nat
deriving DecidableEq

/-- Broadcaster::default() with the id counter at its initial value 1. -/
def Broadcaster.default : Broadcaster := ⟨[], [], 1⟩

/-- Result of one tokio mpsc send on a bounded channel. -/
inductive SendResult : Type
  | delivered (q : SubQueue)
  | closed
  | suspended
deriving DecidableEq

/-- One send on a subscription channel: a dropped receiver makes send return
an error; a full buffer with a live receiver makes send().await suspend the
sending task until capacity frees. -/
def SubQueue.send (q : SubQueue) (v : CommandResponse) : SendResult :=
  if q.receiverAlive = false then .closed
  else if BROADCAST_CAPACITY ≤ q.buffer.length then .suspended
  else .delivered ⟨q.buffer ++ [v], true⟩

/-- Topic::subscribe for Arc Broadcaster: create the topic entry if absent,
allocate the next id, record it in the topic id-set, create the bounded
channel, send the id response (the channel is fresh and empty, so the spawned
send lands as the first queued item), store the sender, return the id (the
receiver half is the queue itself). -/
def Broadcaster.subscribe (b : Broadcaster) (name : String) : Nat × Broadcaster :=
  let idSet := (assocGet b.topics name).getD []
  let id := b.nextId
  let topics' := assocInsert b.topics name (idSet ++ [id])
  let q : SubQueue := ⟨[CommandResponse.fromValue (Value.ofInt (Int.ofNat id))], true⟩
  ⟨id, topics', assocInsertN b.subscriptions id q, id + 1⟩

/-- Topic::unsubscribe for Arc Broadcaster: drop the id from the topic id-set,
delete the topic entry when the set empties, and remove the subscription;
idempotent when the id or topic is unknown. -/
def Broadcaster.unsubscribe (b : Broadcaster) (name : String) (id : Nat) : Broadcaster :=
  let topics' :=
    match assocGet b.topics name with
    | none => b.topics
    | some s =>
      let s' := s.filter (fun j => j ≠ id)
      if s' = [] then assocRemove b.topics name else assocInsert b.topics name s'
  ⟨topics', assocRemoveN b.subscriptions id, b.nextId⟩

/-- Outcome of the spawned publish loop: either every snapshot id was
processed, or the loop is suspended inside send().await at some id whose
queue is full while its receiver is alive. -/
inductive PublishOutcome : Type
  | completed (b : Broadcaster)
  | blocked (atId : Nat) (b : Broadcaster)
deriving DecidableEq

/-- The for-loop body of Topic::publish over the snapshot of subscription ids:
an id with no sender is skipped; a send error (receiver dropped) is logged and
the loop continues; a full queue suspends the loop at that id. -/
def publishGo (v : CommandResponse) : List Nat → Broadcaster → PublishOutcome
  | [], b => .completed b
  | id :: rest, b =>
    match assocGetN b.subscriptions id with
    | none => publishGo v rest b
    | some q =>
      match q.send v with
      | .delivered q' =>
        publishGo v rest ⟨b.topics, assocInsertN b.subscriptions id q', b.nextId⟩
      | .closed => publishGo v rest b
      | .suspended => .blocked id b

/-- Topic::publish for Arc Broadcaster: unknown topic is a no-op, otherwise
snapshot the topic id-set and run the send loop. -/
def Broadcaster.publish (b : Broadcaster) (name : String) (v : CommandResponse) :
    PublishOutcome :=
  match assocGet b.topics name with
  | none => .completed b
  | some ids => publishGo v ids b

/-! ## Service and the hook chain (src/src/service/mod.rs). The fn(&T)
observer hooks are embedded as functions into an arbitrary observation type,
and execute records their firings in order as a trace; fn(&mut CommandResponse)
hooks are response transformers applied in registration order. -/

/-- One recorded hook firing. -/
inductive HookEvent (Omega : Type) : Type
  | received (o : Omega)
  | executed (o : Omega)
deriving DecidableEq

/-- The Service with its inner store and the four registered hook lists; the
broadcaster is the shared pub/sub state. -/
structure ServiceModel (Omega : Type) : Type where
  store : MemTable
  broadcaster : Broadcaster
  onReceived : List (CommandRequest → Omega)
  onExecuted : List (CommandResponse → Omega)
  onBeforeSend : List (CommandResponse → CommandResponse)
  onAfterSend : List Omega

/-- Mark a subscription's receiver half as dropped (the queued items become
unreachable). -/
def Broadcaster.dropReceiver (b : Broadcaster) (id : Nat) : Broadcaster :=
  match assocGetN b.subscriptions id with
  | none => b
  | some q => ⟨b.topics, assocInsertN b.subscriptions id ⟨q.buffer, false⟩, b.nextId⟩

/-- dispatch_stream (src/src/service/mod.rs) as invoked from Service::execute,
which drops the returned stream on the floor: Subscribe performs the
subscription and then loses the receiver; Unsubscribe and Publish run their
state effect (their one-element ok streams are dropped without further
effect); a publish suspended on a full queue keeps the partial state. The
catch-all arm is unreachable because execute only routes here when dispatch
returned the default sentinel, which happens exactly for the pub/sub
variants. -/
def dispatchStreamDropped (request : CommandRequest) (b : Broadcaster) : Broadcaster :=
  match request.requestData with
  | some (.Subscribe v) =>
    let r := b.subscribe v.topic
    r.2.dropReceiver r.1
  | some (.Unsubscribe v) => b.unsubscribe v.topic v.id
  | some (.Publish v) =>
    match b.publish v.topic (CommandResponse.fromValues v.data) with
    | .completed b' => b'
    | .blocked _ b' => b'
  | _ => b

/-- Service::execute (src/src/service/mod.rs): fire on_received in order,
dispatch, and if the dispatcher produced the default sentinel hand the request
to dispatch_stream (discarding its stream) and emit the sentinel; otherwise
fire on_executed on the response, apply the on_before_send mutations in order,
and emit the single mutated response. Returns the hook trace, the emitted
response stream and the updated service state. -/
def ServiceModel.execute {Omega : Type} (s : ServiceModel Omega)
    (request : CommandRequest) :
    List (HookEvent Omega) × List CommandResponse × ServiceModel Omega :=
  let recEvents := s.onReceived.map (fun f => HookEvent.received (f request))
  let r := dispatch request s.store
  if r.1 = CommandResponse.default then
    let b' := dispatchStreamDropped request s.broadcaster
    (recEvents, [CommandResponse.default],
      ⟨r.2, b', s.onReceived, s.onExecuted, s.onBeforeSend, s.onAfterSend⟩)
  else
    let execEvents := s.onExecuted.map (fun f => HookEvent.executed (f r.1))
    let response := s.onBeforeSend.foldl (fun resp f => f resp) r.1
    (recEvents ++ execEvents, [response],
      ⟨r.2, s.broadcaster, s.onReceived, s.onExecuted, s.onBeforeSend, s.onAfterSend⟩)

/-! ## Frame codec (src/src/network/frame.rs). Byte buffers are Lists of
UInt8; prost serialization and the flate2 gzip codec are external
collaborators reached through interface records. -/

/-- LENGTH_BYTES: the header length. -/
def LENGTH_BYTES : Nat := 4

/-- MAX_FRAME = 2 * 1024 * 1024 * 1024 (2 GiB, which equals 2 to the 31). -/
def MAX_FRAME : Nat := 2 * 1024 * 1024 * 1024

/-- COMPRESSION_THRESHOLD = 1436 bytes. -/
def COMPRESSION_THRESHOLD : Nat := 1436

/-- COMPRESSION_BIT = 1 shifted left 31: the highest bit of the 4-byte header. -/
def COMPRESSION_BIT : Nat := 2 ^ 31

/-- BufMut::put_u32: the big-endian bytes of a u32 (the value truncated
mod 2 to the 32). -/
def putU32 (n : Nat) : List UInt8 :=
  [UInt8.ofNat (n / 2 ^ 24), UInt8.ofNat (n / 2 ^ 16),
   UInt8.ofNat (n / 2 ^ 8), UInt8.ofNat n]

/-- Buf::get_u32: read four big-endian bytes, advancing the buffer; the Rust
call panics when fewer than four bytes remain, modelled as an IoError. -/
def getU32 : List UInt8 → Except KvError (Nat × List UInt8)
  | b0 :: b1 :: b2 :: b3 :: rest =>
    .ok (b0.toNat * 2 ^ 24 + b1.toNat * 2 ^ 16 + b2.toNat * 2 ^ 8 + b3.toNat, rest)
  | _ => .error .IoError

/-- The header word the compression branch writes: payload.len() as u32 with
COMPRESSION_BIT or-ed in. For any x below 2 to the 32, or-ing bit 31 into x
keeps bits 0 to 30 and forces bit 31, which is x mod 2^31 + 2^31; the
uncompressed branch writes size as u32 unchanged. -/
def headerWord (len : Nat) (compressed : Bool) : Nat :=
  if compressed then len % 2 ^ 31 + COMPRESSION_BIT else len % 2 ^ 32

/-- decode_header (src/src/network/frame.rs): clear bit 31 for the length,
test bit 31 for the compression flag. The header always comes from get_u32 so
it is below 2 to the 32, where clearing bit 31 is taking the value mod 2^31
and the bit is set exactly when the value reaches COMPRESSION_BIT. -/
def decodeHeader (header : Nat) : Nat × Bool :=
  (header % COMPRESSION_BIT, decide (COMPRESSION_BIT ≤ header))

/-- The interface of a prost Message codec (prost is an external collaborator;
the spec treats the message schema as a given). -/
structure MessageCodec (α : Type) : Type where
  encode : α → List UInt8
  decode : List UInt8 → Except KvError α

/-- The interface of the flate2 gzip codec (an external collaborator):
compression never fails, decompression can. -/
structure GzipModel : Type where
  compress : List UInt8 → List UInt8
  decompress : List UInt8 → Except KvError (List UInt8)

/-- FrameCoder::encode_frame on the serialized message bytes: oversize frames
fail; above the threshold the payload is compressed and the header carries the
compressed length with the compression bit set (the provisional uncompressed
header that the source writes first is split off and replaced, so only the
final header lands in the buffer); otherwise the header is the size and the
payload the serialization. -/
def encodeFrame (ser : List UInt8) (g : GzipModel) : Except KvError (List UInt8) :=
  let size := ser.length
  if MAX_FRAME < size then .error .FrameError
  else if COMPRESSION_THRESHOLD < size then
    let payload := g.compress ser
    .ok (putU32 (headerWord payload.length true) ++ payload)
  else
    .ok (putU32 (headerWord size false) ++ ser)

/-- FrameCoder::decode_frame: read the header word, split length and flag,
then slice exactly len payload bytes; in the compressed branch decompress,
advance the buffer past the payload and decode; in the plain branch decode
first and advance only afterwards (so a decode failure leaves the payload in
the buffer). Returns the result together with the buffer as the source's
in-place BytesMut leaves it. The Rust payload slice panics when the buffer is
shorter than len; no claim reaches that branch, modelled as an error. -/
def decodeFrame {α : Type} (c : MessageCodec α) (g : GzipModel)
    (buf : List UInt8) : Except KvError α × List UInt8 :=
  match getU32 buf with
  | .error e => (.error e, buf)
  | .ok (header, rest) =>
    let p := decodeHeader header
    if p.2 then
      if rest.length < p.1 then (.error (.Internal "slice out of range"), rest)
      else
        match g.decompress (rest.take p.1) with
        | .error e => (.error e, rest)
        | .ok ser =>
          let rest' := rest.drop p.1
          match c.decode ser with
          | .error e => (.error e, rest')
          | .ok m => (.ok m, rest')
    else
      if rest.length < p.1 then (.error (.Internal "slice out of range"), rest)
      else
        match c.decode (rest.take p.1) with
        | .error e => (.error e, rest)
        | .ok m => (.ok m, rest.drop p.1)

/-- The test helper is_compressed (src/src/network/frame.rs tests): the high
bit of the first frame byte. -/
def frameIsCompressed : List UInt8 → Bool
  | b :: _ => decide (128 ≤ b.toNat)
  | [] => false

/-! ## A concrete message codec. Modelled from the spec (section 6.2): the
schema file pb/abi.rs and its prost-generated serialization are absent from
src/; the spec fixes only a length-delimited, variant-discriminated binary
format, which this executable codec realizes (tag byte per variant, 4-byte
big-endian lengths). It instantiates the MessageCodec interface for concrete
witnesses; the frame theorems are generic in the codec. -/

/-- Serialize a string: character count, then each code point as 4 bytes. -/
def encString (s : String) : List UInt8 :=
  putU32 s.data.length ++ (s.data.map (fun ch => putU32 ch.toNat)).flatten

/-- Serialize a Value: tag byte then payload (null 0, string 1, integer 2 with
a sign byte and an 8-byte magnitude, bool 3, binary 4). -/
def encValue (v : Value) : List UInt8 :=
  match v.value with
  | none => [0]
  | some (.string s) => 1 :: encString s
  | some (.integer i) =>
    2 :: (if i < 0 then (1 : UInt8) else 0) ::
      (putU32 (i.natAbs / 2 ^ 32) ++ putU32 i.natAbs)
  | some (.bool b) => [3, if b then 1 else 0]
  | some (.binary bs) => 4 :: (putU32 bs.length ++ bs)

/-- Serialize an optional Value (the KvPair field is optional). -/
def encOptValue : Option Value → List UInt8
  | none => [0]
  | some v => 1 :: encValue v

/-- Serialize a KvPair. -/
def encKvPair (p : KvPair) : List UInt8 :=
  encString p.key ++ encOptValue p.value

/-- Serialize a list through an element serializer, length-delimited. -/
def encList {α : Type} (f : α → List UInt8) (xs : List α) : List UInt8 :=
  putU32 xs.length ++ (xs.map f).flatten

/-- Serialize a CommandRequest: a tag byte for the variant then its fields;
an absent oneof is tag 12. -/
def encRequest (r : CommandRequest) : List UInt8 :=
  match r.requestData with
  | some (.Hget v) => 0 :: (encString v.table ++ encString v.key)
  | some (.Hgetall v) => 1 :: encString v.table
  | some (.Hmget v) => 2 :: (encString v.table ++ encList encString v.keys)
  | some (.Hset v) =>
    3 :: (encString v.table ++
      (match v.pair with | none => [0] | some p => 1 :: encKvPair p))
  | some (.Hmset v) => 4 :: (encString v.table ++ encList encKvPair v.pairs)
  | some (.Hdel v) => 5 :: (encString v.table ++ encString v.key)
  | some (.Hmdel v) => 6 :: (encString v.table ++ encList encString v.keys)
  | some (.Hexist v) => 7 :: (encString v.table ++ encString v.key)
  | some (.Hmexist v) => 8 :: (encString v.table ++ encList encString v.keys)
  | some (.Subscribe v) => 9 :: encString v.topic
  | some (.Unsubscribe v) => 10 :: (encString v.topic ++ putU32 v.id)
  | some (.Publish v) => 11 :: (encString v.topic ++ encList encValue v.data)
  | none => [12]

/-- Serialize a CommandResponse: status, message, values, pairs. -/
def encResponse (r : CommandResponse) : List UInt8 :=
  putU32 r.status ++ encString r.message ++
    encList encValue r.values ++ encList encKvPair r.pairs

/-- Parse a fixed number of characters, 4 bytes each. -/
def parseChars : Nat → List UInt8 → Except KvError (List Char × List UInt8)
  | 0, bs => .ok ([], bs)
  | n + 1, bs =>
    match getU32 bs with
    | .error e => .error e
    | .ok (c, rest) =>
      if c.isValidChar then
        match parseChars n rest with
        | .error e => .error e
        | .ok (cs, rest') => .ok (Char.ofNat c :: cs, rest')
      else .error .DecodeError

/-- Parse a string. -/
def parseString (bs : List UInt8) : Except KvError (String × List UInt8) :=
  match getU32 bs with
  | .error e => .error e
  | .ok (n, rest) =>
    match parseChars n rest with
    | .error e => .error e
    | .ok (cs, rest') => .ok (String.mk cs, rest')

/-- Parse a fixed number of raw bytes. -/
def parseBytes : Nat → List UInt8 → Except KvError (List UInt8 × List UInt8)
  | 0, bs => .ok ([], bs)
  | _ + 1, [] => .error .DecodeError
  | n + 1, b :: bs =>
    match parseBytes n bs with
    | .error e => .error e
    | .ok (xs, rest) => .ok (b :: xs, rest)

/-- Parse a Value. -/
def parseValue (bs : List UInt8) : Except KvError (Value × List UInt8) :=
  match bs with
  | 0 :: rest => .ok (⟨none⟩, rest)
  | 1 :: rest =>
    match parseString rest with
    | .error e => .error e
    | .ok (s, rest') => .ok (⟨some (.string s)⟩, rest')
  | 2 :: sign :: rest =>
    if sign.toNat ≤ 1 then
      match getU32 rest with
      | .error e => .error e
      | .ok (hi, rest') =>
        match getU32 rest' with
        | .error e => .error e
        | .ok (lo, rest'') =>
          let m : Nat := hi * 2 ^ 32 + lo
          .ok (⟨some (.integer (if sign = 1 then -(m : Int) else (m : Int)))⟩, rest'')
    else .error .DecodeError
  | 3 :: b :: rest =>
    if b.toNat ≤ 1 then .ok (⟨some (.bool (b = 1))⟩, rest) else .error .DecodeError
  | 4 :: rest =>
    match getU32 rest with
    | .error e => .error e
    | .ok (n, rest') =>
      match parseBytes n rest' with
      | .error e => .error e
      | .ok (xs, rest'') => .ok (⟨some (.binary xs)⟩, rest'')
  | _ => .error .DecodeError

/-- Parse an optional Value. -/
def parseOptValue (bs : List UInt8) : Except KvError (Option Value × List UInt8) :=
  match bs with
  | 0 :: rest => .ok (none, rest)
  | 1 :: rest =>
    match parseValue rest with
    | .error e => .error e
    | .ok (v, rest') => .ok (some v, rest')
  | _ => .error .DecodeError

/-- Parse a KvPair. -/
def parseKvPair (bs : List UInt8) : Except KvError (KvPair × List UInt8) :=
  match parseString bs with
  | .error e => .error e
  | .ok (k, rest) =>
    match parseOptValue rest with
    | .error e => .error e
    | .ok (v, rest') => .ok (⟨k, v⟩, rest')

/-- Parse a fixed number of elements through an element parser. -/
def parseN {α : Type} (p : List UInt8 → Except KvError (α × List UInt8)) :
    Nat → List UInt8 → Except KvError (List α × List UInt8)
  | 0, bs => .ok ([], bs)
  | n + 1, bs =>
    match p bs with
    | .error e => .error e
    | .ok (x, rest) =>
      match parseN p n rest with
      | .error e => .error e
      | .ok (xs, rest') => .ok (x :: xs, rest')

/-- Parse a length-delimited list. -/
def parseList {α : Type} (p : List UInt8 → Except KvError (α × List UInt8))
    (bs : List UInt8) : Except KvError (List α × List UInt8) :=
  match getU32 bs with
  | .error e => .error e
  | .ok (n, rest) => parseN p n rest

/-- Parse a CommandRequest from its tag byte. -/
def parseRequest (bs : List UInt8) : Except KvError (CommandRequest × List UInt8) :=
  match bs with
  | 0 :: rest =>
    match parseString rest with
    | .error e => .error e
    | .ok (t, r1) =>
      match parseString r1 with
      | .error e => .error e
      | .ok (k, r2) => .ok (⟨some (.Hget ⟨t, k⟩)⟩, r2)
  | 1 :: rest =>
    match parseString rest with
    | .error e => .error e
    | .ok (t, r1) => .ok (⟨some (.Hgetall ⟨t⟩)⟩, r1)
  | 2 :: rest =>
    match parseString rest with
    | .error e => .error e
    | .ok (t, r1) =>
      match parseList parseString r1 with
      | .error e => .error e
      | .ok (ks, r2) => .ok (⟨some (.Hmget ⟨t, ks⟩)⟩, r2)
  | 3 :: rest =>
    match parseString rest with
    | .error e => .error e
    | .ok (t, r1) =>
      match r1 with
      | 0 :: r2 => .ok (⟨some (.Hset ⟨t, none⟩)⟩, r2)
      | 1 :: r2 =>
        match parseKvPair r2 with
        | .error e => .error e
        | .ok (p, r3) => .ok (⟨some (.Hset ⟨t, some p⟩)⟩, r3)
      | _ => .error .DecodeError
  | 4 :: rest =>
    match parseString rest with
    | .error e => .error e
    | .ok (t, r1) =>
      match parseList parseKvPair r1 with
      | .error e => .error e
      | .ok (ps, r2) => .ok (⟨some (.Hmset ⟨t, ps⟩)⟩, r2)
  | 5 :: rest =>
    match parseString rest with
    | .error e => .error e
    | .ok (t, r1) =>
      match parseString r1 with
      | .error e => .error e
      | .ok (k, r2) => .ok (⟨some (.Hdel ⟨t, k⟩)⟩, r2)
  | 6 :: rest =>
    match parseString rest with
    | .error e => .error e
    | .ok (t, r1) =>
      match parseList parseString r1 with
      | .error e => .error e
      | .ok (ks, r2) => .ok (⟨some (.Hmdel ⟨t, ks⟩)⟩, r2)
  | 7 :: rest =>
    match parseString rest with
    | .error e => .error e
    | .ok (t, r1) =>
      match parseString r1 with
      | .error e => .error e
      | .ok (k, r2) => .ok (⟨some (.Hexist ⟨t, k⟩)⟩, r2)
  | 8 :: rest =>
    match parseString rest with
    | .error e => .error e
    | .ok (t, r1) =>
      match parseList parseString r1 with
      | .error e => .error e
      | .ok (ks, r2) => .ok (⟨some (.Hmexist ⟨t, ks⟩)⟩, r2)
  | 9 :: rest =>
    match parseString rest with
    | .error e => .error e
    | .ok (t, r1) => .ok (⟨some (.Subscribe ⟨t⟩)⟩, r1)
  | 10 :: rest =>
    match parseString rest with
    | .error e => .error e
    | .ok (t, r1) =>
      match getU32 r1 with
      | .error e => .error e
      | .ok (id, r2) => .ok (⟨some (.Unsubscribe ⟨t, id⟩)⟩, r2)
  | 11 :: rest =>
    match parseString rest with
    | .error e => .error e
    | .ok (t, r1) =>
      match parseList parseValue r1 with
      | .error e => .error e
      | .ok (vs, r2) => .ok (⟨some (.Publish ⟨t, vs⟩)⟩, r2)
  | 12 :: rest => .ok (⟨none⟩, rest)
  | _ => .error .DecodeError

/-- Parse a CommandResponse. -/
def parseResponse (bs : List UInt8) : Except KvError (CommandResponse × List UInt8) :=
  match getU32 bs with
  | .error e => .error e
  | .ok (status, r1) =>
    match parseString r1 with
    | .error e => .error e
    | .ok (msg, r2) =>
      match parseList parseValue r2 with
      | .error e => .error e
      | .ok (vs, r3) =>
        match parseList parseKvPair r3 with
        | .error e => .error e
        | .ok (ps, r4) => .ok (⟨status, msg, vs, ps⟩, r4)

/-- Whole-buffer decoding: trailing bytes are a decode error. -/
def decodeWhole {α : Type} (p : List UInt8 → Except KvError (α × List UInt8))
    (bs : List UInt8) : Except KvError α :=
  match p bs with
  | .ok (m, []) => .ok m
  | .ok _ => .error .DecodeError
  | .error e => .error e

/-- The concrete CommandRequest codec. -/
def requestCodec : MessageCodec CommandRequest := ⟨encRequest, decodeWhole parseRequest⟩

/-- The concrete CommandResponse codec. -/
def responseCodec : MessageCodec CommandResponse :=
  ⟨encResponse, decodeWhole parseResponse⟩

theorem decodeWhole_ok {α : Type} (p : List UInt8 → Except KvError (α × List UInt8))
    (bs : List UInt8) (m : α) (h : p bs = .ok (m, [])) :
    decodeWhole p bs = .ok m := by
  unfold decodeWhole
  rw [h]

/-- A lossless stand-in for the external flate2 gzip codec: flate2 is an
external collaborator (spec section 1); the frame theorems are generic in the
GzipModel and only use that decompress inverts compress. This instance tags
the payload with the two gzip magic bytes and strips them back off. -/
def gzipStandin : GzipModel :=
  ⟨fun x => 0x1f :: 0x8b :: x,
   fun x =>
     match x with
     | 0x1f :: 0x8b :: rest => .ok rest
     | _ => .error .FrameError⟩

/-! ## Theorems. First the storage-layer lemmas shared by the claims. -/

/-- The value a table currently stores under a key: the observation the spec
phrases as the stored (previous) value, null when absent. -/
def storedValue (st : MemTable) (t k : String) : Option Value :=
  assocGet ((assocGet st t).getD []) k

theorem assocGet_insert_self {α : Type} (l : List (String × α)) (k : String) (v : α) :
    assocGet (assocInsert l k v) k = some v := by
  induction l with
  | nil => simp [assocInsert, assocGet]
  | cons hd tl ih =>
    obtain ⟨k', v'⟩ := hd
    by_cases h : k' = k <;> simp [assocInsert, assocGet, h, ih]

theorem assocGet_insert_ne {α : Type} (l : List (String × α)) (k k' : String) (v : α)
    (h : k' ≠ k) : assocGet (assocInsert l k v) k' = assocGet l k' := by
  induction l with
  | nil => simp [assocInsert, assocGet, Ne.symm h]
  | cons hd tl ih =>
    obtain ⟨k0, v0⟩ := hd
    by_cases h0 : k0 = k
    · subst h0
      simp [assocInsert, assocGet, Ne.symm h]
    · simp [assocInsert, assocGet, h0, ih]

theorem assocGetN_insertN_self {α : Type} (l : List (Nat × α)) (k : Nat) (v : α) :
    assocGetN (assocInsertN l k v) k = some v := by
  induction l with
  | nil => simp [assocInsertN, assocGetN]
  | cons hd tl ih =>
    obtain ⟨k', v'⟩ := hd
    by_cases h : k' = k <;> simp [assocInsertN, assocGetN, h, ih]

theorem assocGetN_insertN_ne {α : Type} (l : List (Nat × α)) (k k' : Nat) (v : α)
    (h : k' ≠ k) : assocGetN (assocInsertN l k v) k' = assocGetN l k' := by
  induction l with
  | nil => simp [assocInsertN, assocGetN, Ne.symm h]
  | cons hd tl ih =>
    obtain ⟨k0, v0⟩ := hd
    by_cases h0 : k0 = k
    · subst h0
      simp [assocInsertN, assocGetN, Ne.symm h]
    · simp [assocInsertN, assocGetN, h0, ih]

theorem getOrCreateTable_fst (st : MemTable) (t : String) :
    (st.getOrCreateTable t).1 = (assocGet st t).getD [] := by
  unfold MemTable.getOrCreateTable
  cases assocGet st t <;> simp

theorem getOrCreateTable_snd_self (st : MemTable) (t : String) :
    assocGet (st.getOrCreateTable t).2 t = some ((assocGet st t).getD []) := by
  unfold MemTable.getOrCreateTable
  cases h : assocGet st t with
  | none => simp [assocGet_insert_self]
  | some tbl => simp [h]

theorem getOrCreateTable_snd_ne (st : MemTable) (t t' : String) (h : t' ≠ t) :
    assocGet (st.getOrCreateTable t).2 t' = assocGet st t' := by
  unfold MemTable.getOrCreateTable
  cases h0 : assocGet st t with
  | none => simp [assocGet_insert_ne _ _ _ _ h]
  | some tbl => simp

theorem MemTable.get_eq (st : MemTable) (t k : String) :
    MemTable.get st t k = (.ok (storedValue st t k), (st.getOrCreateTable t).2) := by
  unfold MemTable.get storedValue
  rcases hg : st.getOrCreateTable t with ⟨tbl, st2⟩
  have hf : tbl = (assocGet st t).getD [] := by
    have h1 := getOrCreateTable_fst st t
    rw [hg] at h1
    exact h1
  simp [hf]

theorem MemTable.set_eq (st : MemTable) (t k : String) (v : Value) :
    MemTable.set st t k v =
      (.ok (storedValue st t k),
        assocInsert (st.getOrCreateTable t).2 t
          (assocInsert ((assocGet st t).getD []) k v)) := by
  unfold MemTable.set storedValue
  rcases hg : st.getOrCreateTable t with ⟨tbl, st2⟩
  have hf : tbl = (assocGet st t).getD [] := by
    have h1 := getOrCreateTable_fst st t
    rw [hg] at h1
    exact h1
  simp [hf]

theorem MemTable.contains_eq (st : MemTable) (t k : String) :
    MemTable.contains st t k =
      (.ok (storedValue st t k).isSome, (st.getOrCreateTable t).2) := by
  unfold MemTable.contains storedValue
  rcases hg : st.getOrCreateTable t with ⟨tbl, st2⟩
  have hf : tbl = (assocGet st t).getD [] := by
    have h1 := getOrCreateTable_fst st t
    rw [hg] at h1
    exact h1
  simp [hf]

theorem MemTable.del_eq (st : MemTable) (t k : String) :
    MemTable.del st t k =
      (.ok (storedValue st t k),
        assocInsert (st.getOrCreateTable t).2 t
          (assocRemove ((assocGet st t).getD []) k)) := by
  unfold MemTable.del storedValue
  rcases hg : st.getOrCreateTable t with ⟨tbl, st2⟩
  have hf : tbl = (assocGet st t).getD [] := by
    have h1 := getOrCreateTable_fst st t
    rw [hg] at h1
    exact h1
  simp [hf]

theorem storedValue_set (st : MemTable) (t k t' k' : String) (v : Value) :
    storedValue (MemTable.set st t k v).2 t' k' =
      if t' = t then (if k' = k then some v else storedValue st t k')
      else storedValue st t' k' := by
  rw [MemTable.set_eq]
  unfold storedValue
  by_cases ht : t' = t
  · subst ht
    rw [assocGet_insert_self]
    by_cases hk : k' = k
    · subst hk
      simp [assocGet_insert_self]
    · simp [hk, assocGet_insert_ne _ _ _ _ hk]
  · rw [assocGet_insert_ne _ _ _ _ ht, getOrCreateTable_snd_ne st t t' ht]
    simp [ht]

/-! ## String containment (the message.contains assertion of the tests). -/

/-- Does the needle start the haystack. -/
def charsLead : List Char → List Char → Bool
  | _, [] => true
  | [], _ :: _ => false
  | a :: as, b :: bs => a == b && charsLead as bs

/-- Does the needle occur anywhere in the haystack. -/
def charsInclude (hay needle : List Char) : Bool :=
  match hay with
  | [] => needle.isEmpty
  | _ :: rest => charsLead hay needle || charsInclude rest needle

/-- str::contains for string literals. -/
def strIncludes (hay needle : String) : Bool := charsInclude hay.data needle.data

theorem charsLead_append (n pre post : List Char) (h : charsLead pre n = true) :
    charsLead (pre ++ post) n = true := by
  induction n generalizing pre with
  | nil => cases pre <;> simp [charsLead]
  | cons c cs ih =>
    cases pre with
    | nil => simp [charsLead] at h
    | cons p ps =>
      simp [charsLead] at h ⊢
      exact ⟨h.1, ih ps h.2⟩

theorem charsInclude_of_lead (hay n : List Char) (h : charsLead hay n = true) :
    charsInclude hay n = true := by
  cases hay with
  | nil =>
    cases n with
    | nil => simp [charsInclude]
    | cons c cs => simp [charsLead] at h
  | cons c rest => simp [charsInclude, h]

/-! ## Command variant predicates (the routing split of dispatch). -/

/-- A unary hash command (handled synchronously by dispatch). -/
def RequestData.isHashCommand : RequestData → Bool
  | .Subscribe _ => false
  | .Unsubscribe _ => false
  | .Publish _ => false
  | _ => true

/-- The Hget variant. -/
def RequestData.isHget : RequestData → Bool
  | .Hget _ => true
  | _ => false

/-! ## Per-command response lemmas. -/

theorem Hget.execute_fst (c : Hget) (st : MemTable) :
    (Hget.execute c st).1 =
      match storedValue st c.table c.key with
      | some v => CommandResponse.fromValue v
      | none => CommandResponse.fromError (.NotFound c.table c.key) := by
  unfold Hget.execute
  rw [MemTable.get_eq]
  cases storedValue st c.table c.key <;> simp

theorem hset_execute_status (c : Hset) (st : MemTable) :
    (Hset.execute c st).1.status = 200 := by
  unfold Hset.execute
  cases c.pair with
  | none => rfl
  | some p =>
    dsimp only
    rw [MemTable.set_eq]
    cases storedValue st c.table p.key <;>
      simp [CommandResponse.fromValue]

theorem hgetall_execute_status (c : Hgetall) (st : MemTable) :
    (Hgetall.execute c st).1.status = 200 := by
  unfold Hgetall.execute MemTable.getAll
  rcases hg : st.getOrCreateTable c.table with ⟨tbl, st2⟩
  simp [CommandResponse.fromPairs]

theorem hdel_execute_status (c : Hdel) (st : MemTable) :
    (Hdel.execute c st).1.status = 200 := by
  unfold Hdel.execute
  rw [MemTable.del_eq]
  cases storedValue st c.table c.key <;>
    simp [CommandResponse.fromValue]

theorem hexist_execute_status (c : Hexist) (st : MemTable) :
    (Hexist.execute c st).1.status = 200 := by
  unfold Hexist.execute
  rw [MemTable.contains_eq]
  simp [CommandResponse.fromValue]

theorem hmget_execute_status (c : Hmget) (st : MemTable) :
    (Hmget.execute c st).1.status = 200 := rfl

theorem hmset_execute_status (c : Hmset) (st : MemTable) :
    (Hmset.execute c st).1.status = 200 := rfl

theorem hmdel_execute_status (c : Hmdel) (st : MemTable) :
    (Hmdel.execute c st).1.status = 200 := rfl

theorem hmexist_execute_status (c : Hmexist) (st : MemTable) :
    (Hmexist.execute c st).1.status = 200 := rfl

theorem dispatch_hash_status (st : MemTable) (d : RequestData)
    (hd : d.isHashCommand = true) :
    (dispatch ⟨some d⟩ st).1.status = 200 ∨
      ((dispatch ⟨some d⟩ st).1.status = 404 ∧ d.isHget = true) := by
  cases d with
  | Hget v =>
    rw [show (dispatch ⟨some (.Hget v)⟩ st) = v.execute st from rfl]
    rw [Hget.execute_fst]
    cases storedValue st v.table v.key with
    | some w => exact Or.inl rfl
    | none => exact Or.inr ⟨rfl, rfl⟩
  | Hgetall v => exact Or.inl (hgetall_execute_status v st)
  | Hmget v => exact Or.inl (hmget_execute_status v st)
  | Hset v => exact Or.inl (hset_execute_status v st)
  | Hmset v => exact Or.inl (hmset_execute_status v st)
  | Hdel v => exact Or.inl (hdel_execute_status v st)
  | Hmdel v => exact Or.inl (hmdel_execute_status v st)
  | Hexist v => exact Or.inl (hexist_execute_status v st)
  | Hmexist v => exact Or.inl (hmexist_execute_status v st)
  | Subscribe v => simp [RequestData.isHashCommand] at hd
  | Unsubscribe v => simp [RequestData.isHashCommand] at hd
  | Publish v => simp [RequestData.isHashCommand] at hd

/-- C2: Hget on an absent key answers 404 with a message containing
Not found and empty values and pairs; on a present key it answers 200 with
the single stored Value; and no other unary hash command ever reports a
missing key as an error, every non-Hget hash dispatch answers status 200. -/
theorem hget_sole_missing_key_error :
    (∀ (st : MemTable) (t k : String), storedValue st t k = none →
      (Hget.execute ⟨t, k⟩ st).1.status = 404 ∧
      strIncludes (Hget.execute ⟨t, k⟩ st).1.message "Not found" = true ∧
      (Hget.execute ⟨t, k⟩ st).1.values = [] ∧
      (Hget.execute ⟨t, k⟩ st).1.pairs = []) ∧
    (∀ (st : MemTable) (t k : String) (v : Value), storedValue st t k = some v →
      (Hget.execute ⟨t, k⟩ st).1 = CommandResponse.fromValue v) ∧
    (∀ (st : MemTable) (d : RequestData), d.isHashCommand = true →
      d.isHget = false → (dispatch ⟨some d⟩ st).1.status = 200) := by
  refine ⟨?_, ?_, ?_⟩
  · intro st t k h
    rw [Hget.execute_fst]
    dsimp only
    rw [h]
    refine ⟨rfl, ?_, rfl, rfl⟩
    unfold strIncludes
    apply charsInclude_of_lead
    rw [show (CommandResponse.fromError (.NotFound t k)).message =
      "Not found for table: " ++ t ++ ", key: " ++ k from rfl]
    rw [show ("Not found for table: " ++ t ++ ", key: " ++ k).data =
      "Not found for table: ".data ++ (t.data ++ (", key: ".data ++ k.data)) by
        simp [String.data_append]]
    have h0 : charsLead "Not found for table: ".data "Not found".data = true := by
      decide
    exact charsLead_append _ _ _ h0
  · intro st t k v h
    rw [Hget.execute_fst]
    dsimp only
    rw [h]
  · intro st d hhash hnot
    rcases dispatch_hash_status st d hhash with h | ⟨h1, h2⟩
    · exact h
    · rw [hnot] at h2
      exact absurd h2 (by simp)

/-- Witness for C2 at concrete inputs: the empty store misses
score and math (404 branch), a one-entry store hits it (200 branch), and a
concrete Hdel dispatch answers 200. -/
theorem hget_sole_missing_key_error_witness :
    ((Hget.execute ⟨"score", "math"⟩ []).1.status = 404 ∧
      strIncludes (Hget.execute ⟨"score", "math"⟩ []).1.message "Not found" = true ∧
      (Hget.execute ⟨"score", "math"⟩ []).1.values = [] ∧
      (Hget.execute ⟨"score", "math"⟩ []).1.pairs = []) ∧
    (Hget.execute ⟨"score", "math"⟩ [("score", [("math", Value.ofInt 10)])]).1 =
      CommandResponse.fromValue (Value.ofInt 10) ∧
    (dispatch ⟨some (.Hdel ⟨"score", "math"⟩)⟩ []).1.status = 200 := by
  refine ⟨hget_sole_missing_key_error.1 [] "score" "math" (by decide),
    hget_sole_missing_key_error.2.1 [("score", [("math", Value.ofInt 10)])]
      "score" "math" (Value.ofInt 10) (by decide),
    hget_sole_missing_key_error.2.2 [] (.Hdel ⟨"score", "math"⟩) (by decide) (by decide)⟩

/-- C9: every MemTable storage operation returns Ok for every table, key and
value, and with a MemTable store the only non-200 dispatch statuses are
Hget's 404 and the invalid-command 400. -/
theorem memtable_storage_never_errors :
    (∀ (st : MemTable) (t k : String), (MemTable.get st t k).1.isOk = true) ∧
    (∀ (st : MemTable) (t k : String) (v : Value),
      (MemTable.set st t k v).1.isOk = true) ∧
    (∀ (st : MemTable) (t k : String), (MemTable.contains st t k).1.isOk = true) ∧
    (∀ (st : MemTable) (t k : String), (MemTable.del st t k).1.isOk = true) ∧
    (∀ (st : MemTable) (t : String), (MemTable.getAll st t).1.isOk = true) ∧
    (∀ (st : MemTable) (t : String), (MemTable.getIter st t).1.isOk = true) ∧
    (∀ (st : MemTable) (r : CommandRequest),
      (∀ d, r.requestData = some d → d.isHashCommand = true) →
      (dispatch r st).1.status = 200 ∨
      ((dispatch r st).1.status = 404 ∧ ∃ v, r.requestData = some (.Hget v)) ∨
      ((dispatch r st).1.status = 400 ∧ r.requestData = none)) := by
  refine ⟨?_, ?_, ?_, ?_, ?_, ?_, ?_⟩
  · intro st t k
    rw [MemTable.get_eq]
    rfl
  · intro st t k v
    rw [MemTable.set_eq]
    rfl
  · intro st t k
    rw [MemTable.contains_eq]
    rfl
  · intro st t k
    rw [MemTable.del_eq]
    rfl
  · intro st t
    unfold MemTable.getAll
    rcases hg : st.getOrCreateTable t with ⟨tbl, st2⟩
    rfl
  · intro st t
    unfold MemTable.getIter
    rcases hg : st.getOrCreateTable t with ⟨tbl, st2⟩
    rfl
  · intro st r hr
    cases hd : r.requestData with
    | none =>
      refine Or.inr (Or.inr ⟨?_, rfl⟩)
      obtain ⟨rd⟩ := r
      cases hd
      rfl
    | some d =>
      obtain ⟨rd⟩ := r
      cases hd
      rcases dispatch_hash_status st d (hr d rfl) with h | ⟨h1, h2⟩
      · exact Or.inl h
      · cases d <;> simp [RequestData.isHget] at h2
        exact Or.inr (Or.inl ⟨h1, _, rfl⟩)

/-- Witness for C9 at concrete inputs: each storage operation evaluated on a
concrete store, and the dispatch split at the invalid (empty) command. -/
theorem memtable_storage_never_errors_witness :
    (MemTable.get [] "t" "k").1.isOk = true ∧
    (MemTable.set [] "t" "k" (Value.ofInt 1)).1.isOk = true ∧
    (MemTable.contains [] "t" "k").1.isOk = true ∧
    (MemTable.del [] "t" "k").1.isOk = true ∧
    (MemTable.getAll [] "t").1.isOk = true ∧
    (MemTable.getIter [] "t").1.isOk = true ∧
    ((dispatch ⟨none⟩ []).1.status = 200 ∨
      ((dispatch ⟨none⟩ []).1.status = 404 ∧
        ∃ v, (⟨none⟩ : CommandRequest).requestData = some (.Hget v)) ∨
      ((dispatch ⟨none⟩ []).1.status = 400 ∧
        (⟨none⟩ : CommandRequest).requestData = none)) :=
  ⟨memtable_storage_never_errors.1 [] "t" "k",
   memtable_storage_never_errors.2.1 [] "t" "k" (Value.ofInt 1),
   memtable_storage_never_errors.2.2.1 [] "t" "k",
   memtable_storage_never_errors.2.2.2.1 [] "t" "k",
   memtable_storage_never_errors.2.2.2.2.1 [] "t",
   memtable_storage_never_errors.2.2.2.2.2.1 [] "t",
   memtable_storage_never_errors.2.2.2.2.2.2 [] ⟨none⟩ (by intro d h; cases h)⟩

/-! ## Hmset: previous-value semantics. -/

/-- The store after writing a prefix of the Hmset pair list in order (each
write stores the pair's value, defaulting to null). -/
def applyHmsetWrites (t : String) (st : MemTable) (ps : List KvPair) : MemTable :=
  ps.foldl (fun s p => (MemTable.set s t p.key (p.value.getD Value.default)).2) st

/-- The spec's reading of the Hmset response values: for each pair in input
order, the value stored under its key immediately before that element is
written, null if absent; writes take effect between elements. -/
def hmsetValues (t : String) (st : MemTable) : List KvPair → List Value
  | [] => []
  | p :: rest =>
    (storedValue st t p.key).getD Value.default ::
      hmsetValues t (MemTable.set st t p.key (p.value.getD Value.default)).2 rest

theorem hmset_foldl_eq (t : String) (ps : List KvPair) :
    ∀ (st : MemTable) (acc : List Value),
      ps.foldl
        (fun (acc : List Value × MemTable) pair =>
          match MemTable.set acc.2 t pair.key (pair.value.getD Value.default) with
          | (.ok (some v), st2) => (acc.1 ++ [v], st2)
          | (_, st2) => (acc.1 ++ [Value.default], st2))
        (acc, st) =
      (acc ++ hmsetValues t st ps, applyHmsetWrites t st ps) := by
  induction ps with
  | nil => intro st acc; simp [hmsetValues, applyHmsetWrites]
  | cons p rest ih =>
    intro st acc
    rw [List.foldl_cons]
    have hstep :
        (match MemTable.set st t p.key (p.value.getD Value.default) with
          | (.ok (some v), st2) => (acc ++ [v], st2)
          | (_, st2) => (acc ++ [Value.default], st2)) =
        (acc ++ [(storedValue st t p.key).getD Value.default],
          (MemTable.set st t p.key (p.value.getD Value.default)).2) := by
      rw [MemTable.set_eq]
      cases storedValue st t p.key <;> simp
    dsimp only
    rw [hstep, ih]
    simp [hmsetValues, applyHmsetWrites]

theorem Hmset.execute_eq (c : Hmset) (st : MemTable) :
    Hmset.execute c st =
      (CommandResponse.fromValues (hmsetValues c.table st c.pairs),
        applyHmsetWrites c.table st c.pairs) := by
  unfold Hmset.execute
  rw [hmset_foldl_eq c.table c.pairs st []]
  simp

theorem hmsetValues_length (t : String) (ps : List KvPair) :
    ∀ st : MemTable, (hmsetValues t st ps).length = ps.length := by
  induction ps with
  | nil => intro st; rfl
  | cons p rest ih => intro st; simp [hmsetValues, ih]

theorem hmsetValues_getElem (t : String) (ps : List KvPair) :
    ∀ (st : MemTable) (i : Nat) (p : KvPair), ps[i]? = some p →
      (hmsetValues t st ps)[i]? =
        some ((storedValue (applyHmsetWrites t st (ps.take i)) t p.key).getD
          Value.default) := by
  induction ps with
  | nil => intro st i p h; simp at h
  | cons q rest ih =>
    intro st i p h
    cases i with
    | zero =>
      simp at h
      subst h
      simp [hmsetValues, applyHmsetWrites]
    | succ j =>
      simp only [List.getElem?_cons_succ] at h
      rw [show hmsetValues t st (q :: rest) =
        (storedValue st t q.key).getD Value.default ::
          hmsetValues t (MemTable.set st t q.key (q.value.getD Value.default)).2 rest
        from rfl]
      rw [List.getElem?_cons_succ]
      rw [ih _ j p h]
      rw [show (q :: rest).take (j + 1) = q :: rest.take j from rfl]
      rw [show applyHmsetWrites t st (q :: rest.take j) =
        applyHmsetWrites t (MemTable.set st t q.key (q.value.getD Value.default)).2
          (rest.take j) from rfl]

/-- C6: for every Hmset over any starting store, the response has status 200
and one value per input pair in input order, each being the value stored
under that pair's key immediately before that element was written (null when
absent), so a duplicated key sees the earlier element's written value. -/
theorem hmset_returns_previous_values (t : String) (ps : List KvPair)
    (st : MemTable) :
    (Hmset.execute ⟨t, ps⟩ st).1.status = 200 ∧
    (Hmset.execute ⟨t, ps⟩ st).1.values.length = ps.length ∧
    (∀ (i : Nat) (p : KvPair), ps[i]? = some p →
      (Hmset.execute ⟨t, ps⟩ st).1.values[i]? =
        some ((storedValue (applyHmsetWrites t st (ps.take i)) t p.key).getD
          Value.default)) := by
  rw [Hmset.execute_eq]
  refine ⟨rfl, ?_, ?_⟩
  · exact hmsetValues_length t ps st
  · intro i p h
    exact hmsetValues_getElem t ps st i p h

/-- Witness for C6 at the spec's concrete scenario 5: on an empty store,
Hmset score with math 10, english 20, chinese 30, math 40 answers 200 with
values null, null, null, Int 10 (the duplicate math sees the first write). -/
theorem hmset_returns_previous_values_witness :
    (Hmset.execute ⟨"score",
      [KvPair.new "math" (Value.ofInt 10), KvPair.new "english" (Value.ofInt 20),
       KvPair.new "chinese" (Value.ofInt 30), KvPair.new "math" (Value.ofInt 40)]⟩
      []).1.status = 200 ∧
    (Hmset.execute ⟨"score",
      [KvPair.new "math" (Value.ofInt 10), KvPair.new "english" (Value.ofInt 20),
       KvPair.new "chinese" (Value.ofInt 30), KvPair.new "math" (Value.ofInt 40)]⟩
      []).1.values.length = 4 ∧
    (Hmset.execute ⟨"score",
      [KvPair.new "math" (Value.ofInt 10), KvPair.new "english" (Value.ofInt 20),
       KvPair.new "chinese" (Value.ofInt 30), KvPair.new "math" (Value.ofInt 40)]⟩
      []).1.values[3]? = some (Value.ofInt 10) := by
  have h := hmset_returns_previous_values "score"
    [KvPair.new "math" (Value.ofInt 10), KvPair.new "english" (Value.ofInt 20),
     KvPair.new "chinese" (Value.ofInt 30), KvPair.new "math" (Value.ofInt 40)] []
  refine ⟨h.1, h.2.1, ?_⟩
  rw [h.2.2 3 (KvPair.new "math" (Value.ofInt 40)) (by decide)]
  decide

/-! ## Frame codec lemmas. -/

theorem UInt8.toNat_ofNat' (n : Nat) : (UInt8.ofNat n).toNat = n % 256 := rfl

theorem getU32_putU32 (n : Nat) (rest : List UInt8) (h : n < 2 ^ 32) :
    getU32 (putU32 n ++ rest) = .ok (n, rest) := by
  unfold putU32 getU32
  simp only [List.cons_append, List.nil_append, UInt8.toNat_ofNat']
  congr 2
  omega

theorem headerWord_lt (len : Nat) (c : Bool) : headerWord len c < 2 ^ 32 := by
  unfold headerWord COMPRESSION_BIT
  cases c <;> simp <;> omega

theorem decodeHeader_headerWord_false (len : Nat) (h : len < 2 ^ 31) :
    decodeHeader (headerWord len false) = (len, false) := by
  unfold decodeHeader headerWord COMPRESSION_BIT
  simp only [Bool.false_eq_true, if_false, Prod.mk.injEq]
  refine ⟨by omega, ?_⟩
  simp only [decide_eq_false_iff_not]
  omega

theorem decodeHeader_headerWord_true (len : Nat) :
    decodeHeader (headerWord len true) = (len % 2 ^ 31, true) := by
  unfold decodeHeader headerWord COMPRESSION_BIT
  simp only [if_true, Prod.mk.injEq]
  refine ⟨by omega, ?_⟩
  simp only [decide_eq_true_eq]
  omega

theorem frameIsCompressed_false (len : Nat) (p : List UInt8) (h : len < 2 ^ 31) :
    frameIsCompressed (putU32 (headerWord len false) ++ p) = false := by
  unfold frameIsCompressed putU32 headerWord
  simp only [Bool.false_eq_true, if_false, List.cons_append, UInt8.toNat_ofNat',
    decide_eq_false_iff_not]
  omega

theorem frameIsCompressed_true (len : Nat) (p : List UInt8) :
    frameIsCompressed (putU32 (headerWord len true) ++ p) = true := by
  show decide (128 ≤ (UInt8.ofNat (headerWord len true / 2 ^ 24)).toNat) = true
  rw [UInt8.toNat_ofNat']
  simp only [decide_eq_true_eq]
  unfold headerWord COMPRESSION_BIT
  simp only [if_true]
  omega

theorem encodeFrame_small (ser : List UInt8) (g : GzipModel)
    (h : ser.length ≤ COMPRESSION_THRESHOLD) :
    encodeFrame ser g = .ok (putU32 (headerWord ser.length false) ++ ser) := by
  unfold encodeFrame
  rw [if_neg (by unfold MAX_FRAME; unfold COMPRESSION_THRESHOLD at h; omega),
    if_neg (by omega)]

theorem encodeFrame_large (ser : List UInt8) (g : GzipModel)
    (h1 : COMPRESSION_THRESHOLD < ser.length) (h2 : ser.length ≤ MAX_FRAME) :
    encodeFrame ser g =
      .ok (putU32 (headerWord (g.compress ser).length true) ++ g.compress ser) := by
  unfold encodeFrame
  rw [if_neg (by omega), if_pos h1]

theorem encodeFrame_oversize (ser : List UInt8) (g : GzipModel)
    (h : MAX_FRAME < ser.length) : encodeFrame ser g = .error .FrameError := by
  unfold encodeFrame
  rw [if_pos h]

theorem decodeFrame_wellformed_plain {α : Type} (c : MessageCodec α)
    (g : GzipModel) (w : Nat) (payload rest : List UInt8) (hw : w < 2 ^ 32)
    (hhd : decodeHeader w = (payload.length, false)) :
    decodeFrame c g (putU32 w ++ (payload ++ rest)) =
      match c.decode payload with
      | .ok m => (.ok m, rest)
      | .error e => (.error e, payload ++ rest) := by
  unfold decodeFrame
  rw [getU32_putU32 w (payload ++ rest) hw]
  dsimp only
  rw [hhd]
  dsimp only
  rw [if_neg (by simp)]
  rw [if_neg (show ¬(payload ++ rest).length < payload.length by
    rw [List.length_append]; omega)]
  rw [show (payload ++ rest).take payload.length = payload from List.take_left _ _]
  rw [show (payload ++ rest).drop payload.length = rest from List.drop_left _ _]
  cases c.decode payload <;> rfl

theorem decodeFrame_wellformed_compressed {α : Type} (c : MessageCodec α)
    (g : GzipModel) (w : Nat) (payload rest : List UInt8) (hw : w < 2 ^ 32)
    (hhd : decodeHeader w = (payload.length, true)) :
    decodeFrame c g (putU32 w ++ (payload ++ rest)) =
      match g.decompress payload with
      | .error e => (.error e, payload ++ rest)
      | .ok ser =>
        match c.decode ser with
        | .error e => (.error e, rest)
        | .ok m => (.ok m, rest) := by
  unfold decodeFrame
  rw [getU32_putU32 w (payload ++ rest) hw]
  dsimp only
  rw [hhd]
  dsimp only
  rw [if_pos rfl]
  rw [if_neg (show ¬(payload ++ rest).length < payload.length by
    rw [List.length_append]; omega)]
  rw [show (payload ++ rest).take payload.length = payload from List.take_left _ _]
  rw [show (payload ++ rest).drop payload.length = rest from List.drop_left _ _]

/-- C4 counterexample: a serialized message of exactly 2 to the 31 bytes
(one past 2 to the 31 minus 1) is NOT rejected by encode_frame, because the
source checks size strictly greater than MAX_FRAME = 2 GiB = 2 to the 31. -/
theorem encode_frame_limit_counterexample :
    2 ^ 31 - 1 < (List.replicate (2 ^ 31) (0 : UInt8)).length ∧
    (encodeFrame (List.replicate (2 ^ 31) (0 : UInt8)) gzipStandin).isOk = true := by
  constructor
  · rw [List.length_replicate]
    norm_num
  · rw [encodeFrame_large _ _
      (by unfold COMPRESSION_THRESHOLD; rw [List.length_replicate]; norm_num)
      (by unfold MAX_FRAME; rw [List.length_replicate]; norm_num)]
    rfl

/-- C4 amended: encode_frame fails with the oversize-frame error exactly when
the serialized length exceeds 2 to the 31 bytes (2 GiB, the source's
MAX_FRAME), not 2 to the 31 minus 1; on success the header's low 31 bits hold
the written payload's length (the compressed length above the threshold),
reduced mod 2 to the 31. -/
theorem encode_frame_size_limit (ser : List UInt8) (g : GzipModel) :
    ((encodeFrame ser g).isOk = true ↔ ser.length ≤ MAX_FRAME) ∧
    (∀ out, encodeFrame ser g = .ok out →
      ∃ w rest, getU32 out = .ok (w, rest) ∧
        (decodeHeader w).1 = rest.length % 2 ^ 31 ∧
        rest = if COMPRESSION_THRESHOLD < ser.length then g.compress ser else ser) := by
  constructor
  · constructor
    · intro h
      by_contra hc
      rw [encodeFrame_oversize ser g (by omega)] at h
      simp [Except.isOk, Except.toBool] at h
    · intro h
      by_cases ht : COMPRESSION_THRESHOLD < ser.length
      · rw [encodeFrame_large ser g ht h]
        rfl
      · rw [encodeFrame_small ser g (by omega)]
        rfl
  · intro out hout
    by_cases hm : MAX_FRAME < ser.length
    · rw [encodeFrame_oversize ser g hm] at hout
      exact absurd hout (by simp)
    · by_cases ht : COMPRESSION_THRESHOLD < ser.length
      · rw [encodeFrame_large ser g ht (by omega)] at hout
        replace hout := Except.ok.inj hout
        subst hout
        refine ⟨headerWord (g.compress ser).length true, g.compress ser,
          getU32_putU32 _ _ (headerWord_lt _ _), ?_, ?_⟩
        · rw [decodeHeader_headerWord_true]
        · rw [if_pos ht]
      · rw [encodeFrame_small ser g (by omega)] at hout
        replace hout := Except.ok.inj hout
        subst hout
        refine ⟨headerWord ser.length false, ser,
          getU32_putU32 _ _ (headerWord_lt _ _), ?_, ?_⟩
        · rw [decodeHeader_headerWord_false ser.length
            (by unfold COMPRESSION_THRESHOLD at ht; omega)]
          dsimp only
          unfold COMPRESSION_THRESHOLD at ht
          omega
        · rw [if_neg ht]

/-- Witness for the amended C4: a three-byte message encodes to the concrete
frame 0 0 0 3 1 2 3, whose header's low 31 bits hold the payload length. -/
theorem encode_frame_size_limit_witness :
    ((encodeFrame [1, 2, 3] gzipStandin).isOk = true ↔
      ([1, 2, 3] : List UInt8).length ≤ MAX_FRAME) ∧
    (∃ w rest, getU32 [0, 0, 0, 3, 1, 2, 3] = .ok (w, rest) ∧
      (decodeHeader w).1 = rest.length % 2 ^ 31 ∧
      rest = if COMPRESSION_THRESHOLD < ([1, 2, 3] : List UInt8).length then
        gzipStandin.compress [1, 2, 3] else [1, 2, 3]) :=
  ⟨(encode_frame_size_limit [1, 2, 3] gzipStandin).1,
   (encode_frame_size_limit [1, 2, 3] gzipStandin).2 [0, 0, 0, 3, 1, 2, 3] (by decide)⟩

/-- C5: a message of at most 1436 serialized bytes encodes to a frame with
compression bit 0 whose payload is the uncompressed serialization and whose
header holds its length; a longer (encodable) message encodes with bit 1,
the compressed payload, and the compressed length in the header's low 31
bits (exactly, whenever that length fits 31 bits). -/
theorem compression_threshold_behavior (ser : List UInt8) (g : GzipModel) :
    (ser.length ≤ COMPRESSION_THRESHOLD →
      encodeFrame ser g = .ok (putU32 (headerWord ser.length false) ++ ser) ∧
      frameIsCompressed (putU32 (headerWord ser.length false) ++ ser) = false ∧
      (decodeHeader (headerWord ser.length false)).1 = ser.length) ∧
    (COMPRESSION_THRESHOLD < ser.length → ser.length ≤ MAX_FRAME →
      encodeFrame ser g =
        .ok (putU32 (headerWord (g.compress ser).length true) ++ g.compress ser) ∧
      frameIsCompressed
        (putU32 (headerWord (g.compress ser).length true) ++ g.compress ser) = true ∧
      (decodeHeader (headerWord (g.compress ser).length true)).1 =
        (g.compress ser).length % 2 ^ 31 ∧
      ((g.compress ser).length < 2 ^ 31 →
        (decodeHeader (headerWord (g.compress ser).length true)).1 =
          (g.compress ser).length)) := by
  constructor
  · intro h
    have hlt : ser.length < 2 ^ 31 := by
      unfold COMPRESSION_THRESHOLD at h
      omega
    refine ⟨encodeFrame_small ser g h, frameIsCompressed_false _ _ hlt, ?_⟩
    rw [decodeHeader_headerWord_false _ hlt]
  · intro h1 h2
    refine ⟨encodeFrame_large ser g h1 h2, frameIsCompressed_true _ _, ?_, ?_⟩
    · rw [decodeHeader_headerWord_true]
    · intro hfit
      rw [decodeHeader_headerWord_true]
      dsimp only
      omega

/-- Witness for C5: a 3-byte message stays uncompressed with bit 0; a
1437-byte message is compressed with bit 1 and its compressed length (1439
under the stand-in codec) lands in the header. -/
theorem compression_threshold_behavior_witness :
    (encodeFrame (List.replicate 3 (0 : UInt8)) gzipStandin =
      .ok (putU32 (headerWord (List.replicate 3 (0 : UInt8)).length false) ++
        List.replicate 3 (0 : UInt8)) ∧
     frameIsCompressed (putU32 (headerWord (List.replicate 3 (0 : UInt8)).length false)
        ++ List.replicate 3 (0 : UInt8)) = false ∧
     (decodeHeader (headerWord (List.replicate 3 (0 : UInt8)).length false)).1 =
        (List.replicate 3 (0 : UInt8)).length) ∧
    (encodeFrame (List.replicate 1437 (0 : UInt8)) gzipStandin =
      .ok (putU32 (headerWord (gzipStandin.compress
            (List.replicate 1437 (0 : UInt8))).length true) ++
        gzipStandin.compress (List.replicate 1437 (0 : UInt8))) ∧
     frameIsCompressed (putU32 (headerWord (gzipStandin.compress
            (List.replicate 1437 (0 : UInt8))).length true) ++
        gzipStandin.compress (List.replicate 1437 (0 : UInt8))) = true ∧
     (decodeHeader (headerWord (gzipStandin.compress
            (List.replicate 1437 (0 : UInt8))).length true)).1 =
        (gzipStandin.compress (List.replicate 1437 (0 : UInt8))).length % 2 ^ 31 ∧
     ((gzipStandin.compress (List.replicate 1437 (0 : UInt8))).length < 2 ^ 31 →
       (decodeHeader (headerWord (gzipStandin.compress
            (List.replicate 1437 (0 : UInt8))).length true)).1 =
          (gzipStandin.compress (List.replicate 1437 (0 : UInt8))).length)) :=
  ⟨(compression_threshold_behavior (List.replicate 3 0) gzipStandin).1
      (by rw [List.length_replicate]; unfold COMPRESSION_THRESHOLD; omega),
   (compression_threshold_behavior (List.replicate 1437 0) gzipStandin).2
      (by rw [List.length_replicate]; unfold COMPRESSION_THRESHOLD; omega)
      (by rw [List.length_replicate]; unfold MAX_FRAME; omega)⟩

/-- C3: for any message codec and lossless compressor, a message framed by
encode_frame and then read back by decode_frame yields the original message
and an empty buffer, in both the uncompressed and the compressed regime. -/
theorem frame_roundtrip {α : Type} (c : MessageCodec α) (g : GzipModel) (m : α)
    (hdec : c.decode (c.encode m) = .ok m)
    (hgz : g.decompress (g.compress (c.encode m)) = .ok (c.encode m))
    (hfit : (g.compress (c.encode m)).length < 2 ^ 31) :
    ∀ out, encodeFrame (c.encode m) g = .ok out →
      decodeFrame c g out = (.ok m, []) := by
  intro out hout
  by_cases hm : MAX_FRAME < (c.encode m).length
  · rw [encodeFrame_oversize _ _ hm] at hout
    exact absurd hout (by simp)
  · by_cases ht : COMPRESSION_THRESHOLD < (c.encode m).length
    · rw [encodeFrame_large _ _ ht (by omega)] at hout
      replace hout := Except.ok.inj hout
      subst hout
      rw [show putU32 (headerWord (g.compress (c.encode m)).length true) ++
          g.compress (c.encode m) =
        putU32 (headerWord (g.compress (c.encode m)).length true) ++
          (g.compress (c.encode m) ++ []) by rw [List.append_nil]]
      rw [decodeFrame_wellformed_compressed c g _ _ [] (headerWord_lt _ _)
        (by rw [decodeHeader_headerWord_true]
            simp only [Prod.mk.injEq]
            exact ⟨by omega, trivial⟩)]
      rw [hgz]
      dsimp only
      rw [hdec]
    · rw [encodeFrame_small _ _ (by omega)] at hout
      replace hout := Except.ok.inj hout
      subst hout
      rw [show putU32 (headerWord (c.encode m).length false) ++ c.encode m =
        putU32 (headerWord (c.encode m).length false) ++ (c.encode m ++ []) by
          rw [List.append_nil]]
      rw [decodeFrame_wellformed_plain c g _ _ [] (headerWord_lt _ _)
        (decodeHeader_headerWord_false _
          (by unfold COMPRESSION_THRESHOLD at ht; omega))]
      rw [hdec]

/-- The gzip stand-in is lossless. -/
theorem gzipStandin_roundtrip (x : List UInt8) :
    gzipStandin.decompress (gzipStandin.compress x) = .ok x := rfl

theorem parseBytes_append (bs rest : List UInt8) :
    parseBytes bs.length (bs ++ rest) = .ok (bs, rest) := by
  induction bs with
  | nil => rfl
  | cons b tl ih => simp [parseBytes, ih]

theorem parseValue_enc_binary (bs rest : List UInt8) (h : bs.length < 2 ^ 32) :
    parseValue (encValue ⟨some (.binary bs)⟩ ++ rest) = .ok (⟨some (.binary bs)⟩, rest) := by
  rw [show encValue ⟨some (.binary bs)⟩ ++ rest =
    4 :: (putU32 bs.length ++ (bs ++ rest)) by simp [encValue]]
  show (match getU32 (putU32 bs.length ++ (bs ++ rest)) with
    | Except.error e => (Except.error e : Except KvError (Value × List UInt8))
    | Except.ok (n, rest') =>
      match parseBytes n rest' with
      | Except.error e => Except.error e
      | Except.ok (xs, rest'') =>
        Except.ok (⟨some (ValueVariant.binary xs)⟩, rest'')) =
    Except.ok (⟨some (ValueVariant.binary bs)⟩, rest)
  rw [getU32_putU32 bs.length (bs ++ rest) h]
  dsimp only
  rw [parseBytes_append]

theorem parseString_enc_empty (rest : List UInt8) :
    parseString (encString "" ++ rest) = .ok ("", rest) := rfl

theorem parseString_putU32_zero (r : List UInt8) :
    parseString (putU32 0 ++ r) = .ok ("", r) := rfl

theorem putU32_length (n : Nat) : (putU32 n).length = 4 := rfl

theorem encResponse_bigbinary_eq :
    responseCodec.encode
        (CommandResponse.fromValue (Value.ofBytes (List.replicate 1500 0))) =
      putU32 200 ++ (encString "" ++
        (encList encValue [⟨some (.binary (List.replicate 1500 0))⟩] ++
          encList encKvPair [])) := by
  have h1 : responseCodec.encode
      (CommandResponse.fromValue (Value.ofBytes (List.replicate 1500 0))) =
    ((putU32 200 ++ encString "") ++
      encList encValue [⟨some (.binary (List.replicate 1500 0))⟩]) ++
        encList encKvPair [] := rfl
  rw [h1, List.append_assoc, List.append_assoc]

theorem encResponse_bigbinary_length :
    (responseCodec.encode
      (CommandResponse.fromValue (Value.ofBytes (List.replicate 1500 0)))).length =
    1521 := by
  rw [encResponse_bigbinary_eq]
  rw [List.length_append, List.length_append, List.length_append]
  rw [show (encString "").length = 4 from rfl]
  rw [show (encList encKvPair []).length = 4 from rfl]
  rw [putU32_length]
  rw [show encList encValue [⟨some (.binary (List.replicate 1500 (0 : UInt8)))⟩] =
    putU32 1 ++ (encValue ⟨some (.binary (List.replicate 1500 0))⟩ ++ []) from rfl]
  rw [List.append_nil, List.length_append, putU32_length]
  rw [show encValue ⟨some (.binary (List.replicate 1500 (0 : UInt8)))⟩ =
    4 :: (putU32 (List.replicate 1500 (0 : UInt8)).length ++
      List.replicate 1500 0) from rfl]
  rw [List.length_cons, List.length_append, putU32_length, List.length_replicate]

theorem responseCodec_decode_bigbinary :
    responseCodec.decode (responseCodec.encode
      (CommandResponse.fromValue (Value.ofBytes (List.replicate 1500 0)))) =
    .ok (CommandResponse.fromValue (Value.ofBytes (List.replicate 1500 0))) := by
  have hv : parseValue (encValue ⟨some (.binary (List.replicate 1500 (0 : UInt8)))⟩
      ++ encList encKvPair []) =
      .ok (⟨some (.binary (List.replicate 1500 0))⟩, encList encKvPair []) :=
    parseValue_enc_binary _ _ (by rw [List.length_replicate]; norm_num)
  have hl : parseList parseValue
      (encList encValue [⟨some (.binary (List.replicate 1500 (0 : UInt8)))⟩] ++
        encList encKvPair []) =
      .ok ([⟨some (.binary (List.replicate 1500 0))⟩], encList encKvPair []) := by
    rw [show encList encValue [⟨some (.binary (List.replicate 1500 (0 : UInt8)))⟩] =
      putU32 1 ++ (encValue ⟨some (.binary (List.replicate 1500 0))⟩ ++ []) from rfl]
    rw [List.append_nil, List.append_assoc]
    unfold parseList
    rw [getU32_putU32 1 _ (by norm_num)]
    dsimp only
    unfold parseN
    rw [hv]
    dsimp only
    rfl
  have hp : parseResponse (responseCodec.encode
      (CommandResponse.fromValue (Value.ofBytes (List.replicate 1500 0)))) =
      .ok (CommandResponse.fromValue (Value.ofBytes (List.replicate 1500 0)), []) := by
    rw [encResponse_bigbinary_eq]
    unfold parseResponse
    rw [getU32_putU32 200 _ (by norm_num)]
    dsimp only
    rw [parseString_enc_empty]
    dsimp only
    rw [hl]
    dsimp only
    rw [show parseList parseKvPair (encList encKvPair []) =
      (.ok ([], []) : Except KvError (List KvPair × List UInt8)) from rfl]
    rfl
  have hproj : responseCodec.decode = decodeWhole parseResponse := rfl
  rw [hproj]
  exact decodeWhole_ok parseResponse _ _ hp

/-- Witness for C3: a concrete Hget request below the compression threshold
and a concrete 1500-byte binary response above it both round-trip through
encode_frame and decode_frame. -/
theorem frame_roundtrip_witness :
    decodeFrame requestCodec gzipStandin
      (putU32 (headerWord (requestCodec.encode
          (CommandRequest.newHget "table" "key")).length false) ++
        requestCodec.encode (CommandRequest.newHget "table" "key")) =
      (.ok (CommandRequest.newHget "table" "key"), []) ∧
    decodeFrame responseCodec gzipStandin
      (putU32 (headerWord (gzipStandin.compress (responseCodec.encode
          (CommandResponse.fromValue (Value.ofBytes
            (List.replicate 1500 0))))).length true) ++
        gzipStandin.compress (responseCodec.encode
          (CommandResponse.fromValue (Value.ofBytes (List.replicate 1500 0))))) =
      (.ok (CommandResponse.fromValue (Value.ofBytes (List.replicate 1500 0))), []) :=
  ⟨frame_roundtrip requestCodec gzipStandin (CommandRequest.newHget "table" "key")
      (by decide) (gzipStandin_roundtrip _) (by decide) _
      (encodeFrame_small _ _ (by decide)),
   frame_roundtrip responseCodec gzipStandin
      (CommandResponse.fromValue (Value.ofBytes (List.replicate 1500 0)))
      responseCodec_decode_bigbinary (gzipStandin_roundtrip _)
      (by rw [show (gzipStandin.compress (responseCodec.encode
            (CommandResponse.fromValue (Value.ofBytes (List.replicate 1500 0))))).length =
          (responseCodec.encode (CommandResponse.fromValue (Value.ofBytes
            (List.replicate 1500 0)))).length + 2 from rfl,
          encResponse_bigbinary_length]
          norm_num) _
      (encodeFrame_large _ _
        (by rw [encResponse_bigbinary_length]; unfold COMPRESSION_THRESHOLD; norm_num)
        (by rw [encResponse_bigbinary_length]; unfold MAX_FRAME; norm_num))⟩

/-- C10 counterexample: a buffer holding a well-formed frame (header
declaring one uncompressed payload byte) whose payload byte 255 is not a
decodable message, followed by one extra byte 171. decode_frame fails before
advancing past the payload, so the buffer keeps the payload byte: the extra
bytes are not what remains, refuting the claimed exact consumption. -/
theorem decode_frame_consumption_counterexample :
    decodeHeader 1 = (1, false) ∧
    decodeFrame requestCodec gzipStandin (putU32 1 ++ ([255] ++ [171])) =
      (.error .DecodeError, [255, 171]) ∧
    ([255, 171] : List UInt8) ≠ [171] := by
  refine ⟨by decide, ?_, by decide⟩
  rw [decodeFrame_wellformed_plain requestCodec gzipStandin 1 [255] [171]
    (by norm_num) (by decide)]
  rfl

/-- C10 amended: for every buffer that begins with a well-formed frame and
continues with arbitrary extra bytes, whenever the payload decodes (and, when
flagged compressed, decompresses and decodes) successfully, decode_frame
consumes exactly the 4-byte header plus the payload and leaves the extra
bytes unchanged; when the plain-branch message decode fails, only the header
is consumed and the payload stays in the buffer ahead of the extra bytes. -/
theorem decode_frame_consumption {α : Type} (c : MessageCodec α) (g : GzipModel)
    (w : Nat) (payload rest : List UInt8) (hw : w < 2 ^ 32) :
    (decodeHeader w = (payload.length, false) →
      (∀ m, c.decode payload = .ok m →
        decodeFrame c g (putU32 w ++ (payload ++ rest)) = (.ok m, rest)) ∧
      (∀ e, c.decode payload = .error e →
        decodeFrame c g (putU32 w ++ (payload ++ rest)) =
          (.error e, payload ++ rest))) ∧
    (decodeHeader w = (payload.length, true) →
      ∀ ser m, g.decompress payload = .ok ser → c.decode ser = .ok m →
        decodeFrame c g (putU32 w ++ (payload ++ rest)) = (.ok m, rest)) := by
  constructor
  · intro hhd
    constructor
    · intro m hm
      rw [decodeFrame_wellformed_plain c g w payload rest hw hhd, hm]
    · intro e he
      rw [decodeFrame_wellformed_plain c g w payload rest hw hhd, he]
  · intro hhd ser m hser hm
    rw [decodeFrame_wellformed_compressed c g w payload rest hw hhd, hser]
    dsimp only
    rw [hm]

/-- Witness for the amended C10: the one-byte payload 12 decodes to the empty
CommandRequest, and with extra byte 7 in the buffer decode_frame returns it
and leaves exactly that byte. -/
theorem decode_frame_consumption_witness :
    decodeFrame requestCodec gzipStandin (putU32 1 ++ ([12] ++ [7])) =
      (.ok (⟨none⟩ : CommandRequest), [7]) :=
  ((decode_frame_consumption requestCodec gzipStandin 1 [12] [7]
    (by norm_num)).1 (by decide)).1 ⟨none⟩ (by decide)

/-! ## Service execute: the subscribe path and the hook chain. -/

/-- C1: evaluating Service::execute on Subscribe at the failing input. The
dispatcher returns the default sentinel, execute hands the request to
dispatch_stream but discards the returned stream (dropping the subscriber's
receiver), and the stream execute emits is a single default response: its
values are empty, not the allocated id 1. The id response sits in the
now-dropped subscription queue. -/
theorem subscribe_stream_first_element_bug :
    ((⟨[], Broadcaster.default, [], [], [], []⟩ : ServiceModel Unit).execute
        (CommandRequest.newSubscribe "lobby")).2.1 = [CommandResponse.default] ∧
    CommandResponse.default.values = [] ∧
    assocGetN ((⟨[], Broadcaster.default, [], [], [], []⟩ : ServiceModel Unit).execute
        (CommandRequest.newSubscribe "lobby")).2.2.broadcaster.subscriptions 1 =
      some ⟨[CommandResponse.fromValue (Value.ofInt 1)], false⟩ := by
  refine ⟨?_, rfl, ?_⟩ <;> rfl

/-- C8: for every unary hash command, execute fires the on_received hooks in
registration order before the on_executed hooks, on_executed observes the
dispatcher's response before mutation, and the emitted response is the
dispatcher's response passed through every on_before_send mutation in
registration order. -/
theorem hook_chain_semantics {Omega : Type} (s : ServiceModel Omega)
    (request : CommandRequest) (d : RequestData)
    (h1 : request.requestData = some d) (h2 : d.isHashCommand = true) :
    s.execute request =
      (s.onReceived.map (fun f => HookEvent.received (f request)) ++
        s.onExecuted.map (fun f =>
          HookEvent.executed (f (dispatch request s.store).1)),
       [s.onBeforeSend.foldl (fun resp f => f resp) (dispatch request s.store).1],
       ⟨(dispatch request s.store).2, s.broadcaster, s.onReceived, s.onExecuted,
         s.onBeforeSend, s.onAfterSend⟩) := by
  have hne : ¬ (dispatch request s.store).1 = CommandResponse.default := by
    obtain ⟨rd⟩ := request
    cases h1
    have hstat := dispatch_hash_status s.store d h2
    intro heq
    rcases hstat with h | ⟨h, _⟩
    · rw [heq] at h
      exact absurd h (by decide)
    · rw [heq] at h
      exact absurd h (by decide)
  unfold ServiceModel.execute
  rw [if_neg hne]

/-- Witness for C8: with an on_before_send hook that sets status 201, an Hset
is delivered with status 201 although the dispatcher produced 200. -/
theorem hook_chain_semantics_witness :
    ((⟨[], Broadcaster.default, [fun _ => ()], [fun _ => ()],
        [fun resp => ⟨201, resp.message, resp.values, resp.pairs⟩], []⟩ :
      ServiceModel Unit).execute
      (CommandRequest.newHset "score" "math" (Value.ofInt 10))).2.1 =
      [⟨201, "", [Value.default], []⟩] ∧
    (dispatch (CommandRequest.newHset "score" "math" (Value.ofInt 10)) []).1.status =
      200 := by
  have h := hook_chain_semantics
    (⟨[], Broadcaster.default, [fun _ => ()], [fun _ => ()],
      [fun resp => ⟨201, resp.message, resp.values, resp.pairs⟩], []⟩ :
      ServiceModel Unit)
    (CommandRequest.newHset "score" "math" (Value.ofInt 10))
    (.Hset ⟨"score", some (KvPair.new "math" (Value.ofInt 10))⟩) rfl rfl
  constructor
  · rw [h]
    rfl
  · rfl

/-! ## Publish loop lemmas. -/

theorem publishGo_all_ok (v : CommandResponse) :
    ∀ (ids : List Nat) (b : Broadcaster), ids.Nodup →
      (∀ id, id ∈ ids → ∀ q, assocGetN b.subscriptions id = some q →
        q.receiverAlive = false ∨ q.buffer.length < BROADCAST_CAPACITY) →
      ∃ b', publishGo v ids b = .completed b' ∧
        b'.topics = b.topics ∧ b'.nextId = b.nextId ∧
        (∀ id q, id ∈ ids → assocGetN b.subscriptions id = some q →
          q.receiverAlive = true →
          assocGetN b'.subscriptions id = some ⟨q.buffer ++ [v], true⟩) ∧
        (∀ id q, id ∈ ids → assocGetN b.subscriptions id = some q →
          q.receiverAlive = false → assocGetN b'.subscriptions id = some q) ∧
        (∀ id, id ∉ ids →
          assocGetN b'.subscriptions id = assocGetN b.subscriptions id) := by
  intro ids
  induction ids with
  | nil =>
    intro b _ _
    exact ⟨b, rfl, rfl, rfl, by simp, by simp, fun _ _ => rfl⟩
  | cons id rest ih =>
    intro b hnd hok
    have hid_notin : id ∉ rest := (List.nodup_cons.mp hnd).1
    have hrest_nd : rest.Nodup := (List.nodup_cons.mp hnd).2
    cases hq : assocGetN b.subscriptions id with
    | none =>
      obtain ⟨b', hgo, ht, hn, hdel, hskip, hun⟩ := ih b hrest_nd
        (fun j hj p hp => hok j (List.mem_cons_of_mem _ hj) p hp)
      refine ⟨b', ?_, ht, hn, ?_, ?_, ?_⟩
      · simp only [publishGo]
        rw [hq]
        exact hgo
      · intro id0 q0 hmem hq0 halive
        rcases List.mem_cons.mp hmem with heq | hmem'
        · subst heq
          rw [hq0] at hq
          cases hq
        · exact hdel id0 q0 hmem' hq0 halive
      · intro id0 q0 hmem hq0 hdead
        rcases List.mem_cons.mp hmem with heq | hmem'
        · subst heq
          rw [hq0] at hq
          cases hq
        · exact hskip id0 q0 hmem' hq0 hdead
      · intro id0 hnot
        exact hun id0 (fun hmem' => hnot (List.mem_cons_of_mem _ hmem'))
    | some q =>
      cases halive : q.receiverAlive with
      | false =>
        have hsend : q.send v = .closed := by
          unfold SubQueue.send
          rw [if_pos halive]
        obtain ⟨b', hgo, ht, hn, hdel, hskip, hun⟩ := ih b hrest_nd
          (fun j hj p hp => hok j (List.mem_cons_of_mem _ hj) p hp)
        refine ⟨b', ?_, ht, hn, ?_, ?_, ?_⟩
        · simp only [publishGo]
          rw [hq]
          dsimp only
          rw [hsend]
          exact hgo
        · intro id0 q0 hmem hq0 halive0
          rcases List.mem_cons.mp hmem with heq | hmem'
          · subst heq
            rw [hq0] at hq
            cases hq
            rw [halive] at halive0
            cases halive0
          · exact hdel id0 q0 hmem' hq0 halive0
        · intro id0 q0 hmem hq0 hdead0
          rcases List.mem_cons.mp hmem with heq | hmem'
          · subst heq
            rw [hq0] at hq
            cases hq
            rw [hun id0 hid_notin, hq0]
          · exact hskip id0 q0 hmem' hq0 hdead0
        · intro id0 hnot
          exact hun id0 (fun hmem' => hnot (List.mem_cons_of_mem _ hmem'))
      | true =>
        have hspace : q.buffer.length < BROADCAST_CAPACITY := by
          rcases hok id (List.mem_cons_self _ _) q hq with hdead | hs
          · rw [halive] at hdead
            cases hdead
          · exact hs
        have hsend : q.send v = .delivered ⟨q.buffer ++ [v], true⟩ := by
          unfold SubQueue.send
          rw [if_neg (by rw [halive]; intro hc; cases hc), if_neg (by omega)]
        obtain ⟨b', hgo, ht, hn, hdel, hskip, hun⟩ := ih
          ⟨b.topics, assocInsertN b.subscriptions id ⟨q.buffer ++ [v], true⟩,
            b.nextId⟩ hrest_nd
          (fun j hj p hp => by
            have hne : j ≠ id := fun h => hid_notin (h ▸ hj)
            rw [show assocGetN (assocInsertN b.subscriptions id
                ⟨q.buffer ++ [v], true⟩) j = assocGetN b.subscriptions j from
              assocGetN_insertN_ne _ _ _ _ hne] at hp
            exact hok j (List.mem_cons_of_mem _ hj) p hp)
        refine ⟨b', ?_, ht, hn, ?_, ?_, ?_⟩
        · simp only [publishGo]
          rw [hq]
          dsimp only
          rw [hsend]
          exact hgo
        · intro id0 q0 hmem hq0 halive0
          rcases List.mem_cons.mp hmem with heq | hmem'
          · subst heq
            rw [hq0] at hq
            cases hq
            rw [hun id0 hid_notin]
            dsimp only
            rw [assocGetN_insertN_self]
          · have hne : id0 ≠ id := fun h => hid_notin (h ▸ hmem')
            refine hdel id0 q0 hmem' ?_ halive0
            dsimp only
            rw [assocGetN_insertN_ne _ _ _ _ hne]
            exact hq0
        · intro id0 q0 hmem hq0 hdead0
          rcases List.mem_cons.mp hmem with heq | hmem'
          · subst heq
            rw [hq0] at hq
            cases hq
            rw [halive] at hdead0
            cases hdead0
          · have hne : id0 ≠ id := fun h => hid_notin (h ▸ hmem')
            refine hskip id0 q0 hmem' ?_ hdead0
            dsimp only
            rw [assocGetN_insertN_ne _ _ _ _ hne]
            exact hq0
        · intro id0 hnot
          have hne : id0 ≠ id := fun h => hnot (h ▸ List.mem_cons_self _ _)
          rw [hun id0 (fun hmem' => hnot (List.mem_cons_of_mem _ hmem'))]
          dsimp only
          rw [assocGetN_insertN_ne _ _ _ _ hne]

theorem publishGo_blocked (v : CommandResponse) :
    ∀ (pre : List Nat) (b : Broadcaster) (id : Nat) (post : List Nat)
      (q : SubQueue), pre.Nodup → id ∉ pre →
      (∀ j, j ∈ pre → ∀ p, assocGetN b.subscriptions j = some p →
        p.receiverAlive = false ∨ p.buffer.length < BROADCAST_CAPACITY) →
      assocGetN b.subscriptions id = some q → q.receiverAlive = true →
      BROADCAST_CAPACITY ≤ q.buffer.length →
      ∃ b', publishGo v (pre ++ id :: post) b = .blocked id b' := by
  intro pre
  induction pre with
  | nil =>
    intro b id post q _ _ _ hq halive hfull
    refine ⟨b, ?_⟩
    rw [List.nil_append]
    simp only [publishGo]
    rw [hq]
    dsimp only
    rw [show q.send v = SendResult.suspended from by
      unfold SubQueue.send
      rw [if_neg (by rw [halive]; intro hc; cases hc), if_pos hfull]]
  | cons j pre' ih =>
    intro b id post q hnd hnotin hok hq halive hfull
    have hpre'_nd : pre'.Nodup := (List.nodup_cons.mp hnd).2
    have hj_notin : j ∉ pre' := (List.nodup_cons.mp hnd).1
    have hid_ne : id ≠ j := fun h => hnotin (h ▸ List.mem_cons_self _ _)
    have hid_notin' : id ∉ pre' := fun h => hnotin (List.mem_cons_of_mem _ h)
    rw [List.cons_append]
    cases hqj : assocGetN b.subscriptions j with
    | none =>
      obtain ⟨b', hgo⟩ := ih b id post q hpre'_nd hid_notin'
        (fun j0 hj0 p hp => hok j0 (List.mem_cons_of_mem _ hj0) p hp)
        hq halive hfull
      refine ⟨b', ?_⟩
      simp only [publishGo]
      rw [hqj]
      exact hgo
    | some p =>
      cases halivep : p.receiverAlive with
      | false =>
        have hsend : p.send v = .closed := by
          unfold SubQueue.send
          rw [if_pos halivep]
        obtain ⟨b', hgo⟩ := ih b id post q hpre'_nd hid_notin'
          (fun j0 hj0 p0 hp0 => hok j0 (List.mem_cons_of_mem _ hj0) p0 hp0)
          hq halive hfull
        refine ⟨b', ?_⟩
        simp only [publishGo]
        rw [hqj]
        dsimp only
        rw [hsend]
        exact hgo
      | true =>
        have hspace : p.buffer.length < BROADCAST_CAPACITY := by
          rcases hok j (List.mem_cons_self _ _) p hqj with hdead | hs
          · rw [halivep] at hdead
            cases hdead
          · exact hs
        have hsend : p.send v = .delivered ⟨p.buffer ++ [v], true⟩ := by
          unfold SubQueue.send
          rw [if_neg (by rw [halivep]; intro hc; cases hc), if_neg (by omega)]
        obtain ⟨b', hgo⟩ := ih
          ⟨b.topics, assocInsertN b.subscriptions j ⟨p.buffer ++ [v], true⟩,
            b.nextId⟩ id post q hpre'_nd hid_notin'
          (fun j0 hj0 p0 hp0 => by
            have hne : j0 ≠ j := fun h => hj_notin (h ▸ hj0)
            rw [show assocGetN (assocInsertN b.subscriptions j
                ⟨p.buffer ++ [v], true⟩) j0 = assocGetN b.subscriptions j0 from
              assocGetN_insertN_ne _ _ _ _ hne] at hp0
            exact hok j0 (List.mem_cons_of_mem _ hj0) p0 hp0)
          (by
            dsimp only
            rw [assocGetN_insertN_ne _ _ _ _ hid_ne]
            exact hq)
          halive hfull
        refine ⟨b', ?_⟩
        simp only [publishGo]
        rw [hqj]
        dsimp only
        rw [hsend]
        exact hgo

/-- C7 counterexample: topic t has subscribers 1 (queue full at the
128-message capacity, receiver alive) and 2 (queue empty, receiver alive).
The claim says the full subscriber is skipped and subscriber 2 still receives
the clone; the source's send().await instead suspends the publish loop at
subscriber 1, so the loop never reaches subscriber 2, whose queue stays
empty. -/
theorem publish_full_queue_counterexample :
    Broadcaster.publish
      ⟨[("t", [1, 2])],
        [(1, ⟨List.replicate 128 CommandResponse.ok, true⟩), (2, ⟨[], true⟩)], 3⟩
      "t" CommandResponse.ok =
      .blocked 1
        ⟨[("t", [1, 2])],
          [(1, ⟨List.replicate 128 CommandResponse.ok, true⟩), (2, ⟨[], true⟩)], 3⟩ ∧
    assocGetN
      [(1, (⟨List.replicate 128 CommandResponse.ok, true⟩ : SubQueue)),
        (2, ⟨[], true⟩)] 2 = some ⟨[], true⟩ := by
  constructor
  · rfl
  · rfl

/-- C7 amended: a publish on an unknown topic is a no-op; when every
subscriber in the topic's snapshot has a dropped receiver or spare queue
capacity, the publish loop completes, delivering exactly one clone to every
live subscriber, skipping (and leaving untouched) every dropped one without
failing; but a subscriber whose queue is full while its receiver is alive
suspends the loop at that subscriber (tokio send().await waits for capacity),
deferring delivery to the subscribers after it in the snapshot order. -/
theorem publish_best_effort :
    (∀ (b : Broadcaster) (name : String) (v : CommandResponse),
      assocGet b.topics name = none → b.publish name v = .completed b) ∧
    (∀ (b : Broadcaster) (name : String) (v : CommandResponse) (ids : List Nat),
      assocGet b.topics name = some ids → ids.Nodup →
      (∀ id, id ∈ ids → ∀ q, assocGetN b.subscriptions id = some q →
        q.receiverAlive = false ∨ q.buffer.length < BROADCAST_CAPACITY) →
      ∃ b', b.publish name v = .completed b' ∧
        b'.topics = b.topics ∧ b'.nextId = b.nextId ∧
        (∀ id q, id ∈ ids → assocGetN b.subscriptions id = some q →
          q.receiverAlive = true →
          assocGetN b'.subscriptions id = some ⟨q.buffer ++ [v], true⟩) ∧
        (∀ id q, id ∈ ids → assocGetN b.subscriptions id = some q →
          q.receiverAlive = false → assocGetN b'.subscriptions id = some q) ∧
        (∀ id, id ∉ ids →
          assocGetN b'.subscriptions id = assocGetN b.subscriptions id)) ∧
    (∀ (b : Broadcaster) (name : String) (v : CommandResponse)
      (pre post : List Nat) (id : Nat) (q : SubQueue),
      assocGet b.topics name = some (pre ++ id :: post) →
      pre.Nodup → id ∉ pre →
      (∀ j, j ∈ pre → ∀ p, assocGetN b.subscriptions j = some p →
        p.receiverAlive = false ∨ p.buffer.length < BROADCAST_CAPACITY) →
      assocGetN b.subscriptions id = some q → q.receiverAlive = true →
      BROADCAST_CAPACITY ≤ q.buffer.length →
      ∃ b', b.publish name v = .blocked id b') := by
  refine ⟨?_, ?_, ?_⟩
  · intro b name v h
    unfold Broadcaster.publish
    rw [h]
  · intro b name v ids h hnd hok
    obtain ⟨b', hgo, rest⟩ := publishGo_all_ok v ids b hnd hok
    refine ⟨b', ?_, rest⟩
    unfold Broadcaster.publish
    rw [h]
    exact hgo
  · intro b name v pre post id q h hnd hnotin hok hq halive hfull
    obtain ⟨b', hgo⟩ := publishGo_blocked v pre b id post q hnd hnotin hok
      hq halive hfull
    refine ⟨b', ?_⟩
    unfold Broadcaster.publish
    rw [h]
    exact hgo

/-- Witness for the amended C7 at concrete broadcasters: an unknown topic is
a no-op; a topic with one live empty-queue subscriber and one dropped
subscriber completes, delivering to the live one and skipping the dropped
one; and a topic whose first subscriber has a full live queue blocks at it. -/
theorem publish_best_effort_witness :
    (Broadcaster.publish ⟨[], [], 1⟩ "t" CommandResponse.ok = .completed ⟨[], [], 1⟩) ∧
    (∃ b', Broadcaster.publish
        ⟨[("t", [1, 2])], [(1, ⟨[], true⟩), (2, ⟨[CommandResponse.ok], false⟩)], 3⟩
        "t" CommandResponse.ok = .completed b' ∧
      b'.topics = [("t", [1, 2])] ∧ b'.nextId = 3 ∧
      assocGetN b'.subscriptions 1 = some ⟨[CommandResponse.ok], true⟩ ∧
      assocGetN b'.subscriptions 2 = some ⟨[CommandResponse.ok], false⟩) ∧
    (∃ b', Broadcaster.publish
        ⟨[("t", [1, 2])],
          [(1, ⟨List.replicate 128 CommandResponse.ok, true⟩), (2, ⟨[], true⟩)], 3⟩
        "t" CommandResponse.ok = .blocked 1 b') := by
  refine ⟨?_, ?_, ?_⟩
  · exact publish_best_effort.1 ⟨[], [], 1⟩ "t" CommandResponse.ok (by decide)
  · obtain ⟨b', hpub, ht, hn, hdel, hskip, _⟩ := publish_best_effort.2.1
      ⟨[("t", [1, 2])], [(1, ⟨[], true⟩), (2, ⟨[CommandResponse.ok], false⟩)], 3⟩
      "t" CommandResponse.ok [1, 2] (by decide) (by decide)
      (by
        intro id hid q hq
        rcases List.mem_cons.mp hid with h1 | hid'
        · subst h1
          simp [assocGetN] at hq
          subst hq
          right
          decide
        · rcases List.mem_cons.mp hid' with h2 | hnil
          · subst h2
            simp [assocGetN] at hq
            subst hq
            left
            rfl
          · cases hnil)
    refine ⟨b', hpub, ht, hn, ?_, ?_⟩
    · have := hdel 1 ⟨[], true⟩ (by decide) (by decide) rfl
      simpa using this
    · have := hskip 2 ⟨[CommandResponse.ok], false⟩ (by decide) (by decide) rfl
      exact this
  · exact publish_best_effort.2.2
      ⟨[("t", [1, 2])],
        [(1, ⟨List.replicate 128 CommandResponse.ok, true⟩), (2, ⟨[], true⟩)], 3⟩
      "t" CommandResponse.ok [] [2] 1
      ⟨List.replicate 128 CommandResponse.ok, true⟩ (by decide) (by decide)
      (by decide) (by intro j hj; cases hj) (by decide) rfl
      (by rw [List.length_replicate]; unfold BROADCAST_CAPACITY; omega)
